import Mathlib

/-!
# Verification of the agentic company-search orchestrator

Shallow embedding of the control logic of the agentic search orchestrator
(`src/lib/agent/orchestrator.ts`), its candidate aggregation
(`buildCandidateMap`, and `mergeCandidates` of `src/lib/agent/tools.ts`),
the clarification-session store of the agentic orchestrator variants kept in
`src/lib/agent/prompts.ts`, the RPC error construction of the retrieval
client (`runRpc`), and the user-facing error mapping of the chat API route.

Modelling conventions:
* JS numbers (retrieval scores, confidences) are modelled as exact rationals
  (`Rat`).  The orchestrator only compares, maxes, clamps and rounds scores,
  never adds them, so this is faithful for the control flow.
* External asynchronous calls (completion service, embedding service,
  retrieval RPCs) are modelled by an environment (`Env`) that supplies, for
  each call site, either the call's result or its failure.  A thrown JS
  error is `Except.error`; the error string is the JS error message.
* JS `Map` objects are modelled as association lists in insertion order
  (`JsMap`), with `set` replacing in place, which is exactly the iteration
  semantics of `Map`.
* JS `Array.prototype.sort` is stable (ES2019); it is modelled by a stable
  insertion sort `stableSortBy lt` where `lt a b` means the comparator
  returns a negative number on `(a, b)`.
* Telemetry writes (`insertSearchRun`, `insertSearchRunStep`, ...) swallow
  their own failures in `src/lib/search/telemetry.ts` and never affect
  control flow; only the final `finalizeRun` row content is modelled
  (`Recorded`), plus ghost counters that count completion-call invocations
  and logged retrieval failures for the specification statements.
-/

namespace Ceejay

/-! ## Generic JS-flavoured utilities -/

/-- Characters treated as whitespace by `String.prototype.trim` (the ASCII
subset actually exercised by the orchestrator's inputs). -/
def isJsWhitespace (c : Char) : Bool :=
  c = ' ' ∨ c = '\t' ∨ c = '\n' ∨ c = '\r'

/-- `String.prototype.trim`. -/
def jsTrim (s : String) : String :=
  String.mk (((s.toList.dropWhile isJsWhitespace).reverse.dropWhile isJsWhitespace).reverse)

/-- `String.prototype.toLowerCase` (character-wise). -/
def jsToLower (s : String) : String :=
  String.mk (s.toList.map Char.toLower)

/-- `String.prototype.includes` (substring containment). -/
def containsSubstr (hay needle : String) : Bool :=
  hay.toList.tails.any (fun t => needle.toList.isPrefixOf t)

/-- `Array.from(new Set(xs))`: deduplicate keeping first occurrences, in
insertion order. -/
def dedupFirst (xs : List String) : List String :=
  xs.foldl (fun acc x => if x ∈ acc then acc else acc ++ [x]) []

/-- A character counted by the JS regex class `\w` (`[A-Za-z0-9_]`). -/
def isWordChar (c : Char) : Bool :=
  ('a' ≤ c ∧ c ≤ 'z') ∨ ('A' ≤ c ∧ c ≤ 'Z') ∨ ('0' ≤ c ∧ c ≤ '9') ∨ c = '_'

/-- Helper for `containsToken`: scan the haystack remembering the previous
character, accepting a match of `kw` only at `\b` boundaries. -/
def containsTokenAux (kw : List Char) : Option Char → List Char → Bool
  | prev, hay =>
    ((match prev with | some c => !(isWordChar c) | none => true)
      && kw.isPrefixOf hay
      && (match (hay.drop kw.length).head? with
          | some c => !(isWordChar c)
          | none => true))
    || match hay with
       | [] => false
       | c :: rest => containsTokenAux kw (some c) rest

/-- `new RegExp("\\b" + kw + "\\b").test hay` for a purely alphabetic keyword. -/
def containsToken (kw : String) (hay : String) : Bool :=
  containsTokenAux kw.toList none hay.toList

/-- A JS `Map` with `String` keys: association list in insertion order. -/
abbrev JsMap (α : Type) := List (String × α)

/-- `Map.prototype.get`. -/
def jsGet {α : Type} : JsMap α → String → Option α
  | [], _ => none
  | (k', v) :: rest, k => if k' = k then some v else jsGet rest k

/-- `Map.prototype.set`: replace in place if the key exists (keeping its
position in iteration order), otherwise append. -/
def jsSet {α : Type} : JsMap α → String → α → JsMap α
  | [], k, v => [(k, v)]
  | (k', v') :: rest, k, v =>
    if k' = k then (k, v) :: rest else (k', v') :: jsSet rest k v

/-- `Map.prototype.values()` in iteration order. -/
def jsValues {α : Type} (m : JsMap α) : List α := m.map (·.2)

/-- Stable insertion into a list sorted by the strict order `lt`; an element
is placed after every earlier element it does not strictly precede.  Used to
model the (stable) `Array.prototype.sort`, where `lt a b` means the JS
comparator returns a negative number on `(a, b)`. -/
def stableInsertBy {α : Type} (lt : α → α → Bool) (x : α) : List α → List α
  | [] => [x]
  | y :: ys => if lt x y then x :: y :: ys else y :: stableInsertBy lt x ys

/-- Stable sort by the strict order `lt` (model of the stable JS sort). -/
def stableSortBy {α : Type} (lt : α → α → Bool) (l : List α) : List α :=
  l.foldl (fun acc x => stableInsertBy lt x acc) []

/-- `Number(q.toFixed(3))`: round to three decimal places, ties away from
zero for the nonnegative scores that occur here (implemented with integer
floor division to stay kernel-computable). -/
def roundTo3 (q : Rat) : Rat :=
  mkRat ((2000 * q.num + (q.den : Int)).fdiv (2 * (q.den : Int))) 1000

/-! ## Data model (src/lib/search/types.ts, src/lib/search/rpc.ts) -/

/-- Row of `search_exact_name_v1` (`ExactNameResult` in `rpc.ts`). -/
structure ExactNameRow where
  companyId : String
  nameScore : Rat
  matchedName : String
deriving Repr, DecidableEq

/-- Row of `search_companies_hybrid_v1` (`HybridResult`). -/
structure HybridRow where
  companyId : String
  semanticScore : Rat
  keywordScore : Rat
  nicheScore : Rat
  combinedScore : Rat
  matchedFields : List String
  matchedTerms : List String
deriving Repr, DecidableEq

/-- Row of `search_companies_keyword_v1` (`KeywordResult`). -/
structure KeywordRow where
  companyId : String
  keywordScore : Rat
  nicheScore : Rat
  combinedScore : Rat
  matchedTerms : List String
deriving Repr, DecidableEq

/-- Row of `search_companies_by_taxonomy_v1` (`TaxonomyResult`). -/
structure TaxonomyRow where
  companyId : String
  sectorHits : Int
  categoryHits : Int
  modelHits : Int
  tagScore : Rat
deriving Repr, DecidableEq

/-- The fields of a `Company` record that the orchestrator reads. -/
structure Company where
  id : String
  company_name : String
  status : String
  tagline : Option String
  description : Option String
  product_description : Option String
  target_customer : Option String
  problem_solved : Option String
  differentiator : Option String
  niches : List String
  sectors : List String
  categories : List String
  business_models : List String
deriving Repr, DecidableEq

/-- `SearchCandidate` of `src/lib/search/types.ts`. -/
structure SearchCandidate where
  companyId : String
  semanticScore : Rat
  keywordScore : Rat
  nicheScore : Rat
  combinedScore : Rat
  exactMatchScore : Rat
  matchedFields : List String
  matchedTerms : List String
  evidenceChips : List String
deriving Repr, DecidableEq

/-- `RankedCandidate extends SearchCandidate`. -/
structure RankedCandidate extends SearchCandidate where
  rank : Nat
  confidence : Rat
  reason : String
deriving Repr, DecidableEq

inductive NicheMode
  | boost
  | must_match
deriving Repr, DecidableEq

structure AgentFilterPlan where
  statuses : List String
  sectors : List String
  categories : List String
  businessModels : List String
  niches : List String
  nicheMode : NicheMode
deriving Repr, DecidableEq

inductive SearchStrategy
  | exact_name
  | hybrid
  | keyword
  | taxonomy
deriving Repr, DecidableEq

/-- `AgentPlan` (also the planner's schema-validated output). -/
structure AgentPlan where
  intent : String
  targetResultCount : Int
  queryVariants : List String
  searchPriorityOrder : List SearchStrategy
  filters : AgentFilterPlan
  successCriteria : String
deriving Repr, DecidableEq

/-- One entry of the reranker output's `perCompany` array. -/
structure RerankPerCompany where
  companyId : String
  reason : String
  inlineDescription : String
  evidenceChips : List String
  confidence : Rat
deriving Repr, DecidableEq

/-- `RerankerOutput` of `src/lib/agent/schemas.ts`. -/
structure RerankerOutput where
  confidence : Rat
  rankedCompanyIds : List String
  perCompany : List RerankPerCompany
deriving Repr, DecidableEq

inductive CriticDecision
  | cont
  | stop
deriving Repr, DecidableEq

/-- `CriticOutput` of `src/lib/agent/schemas.ts`. -/
structure CriticOutput where
  decision : CriticDecision
  why : String
  confidenceTargetMet : Bool
  shouldExpandQueries : Bool
  newQueryVariants : List String
deriving Repr, DecidableEq

inductive EndReason
  | exact_match
  | confidence_met
  | converged
  | guardrail_hit
  | error
deriving Repr, DecidableEq

/-! ## Taxonomy allow-lists (src/lib/search/taxonomy.ts) -/

def SECTORS : List String :=
  ["Fintech", "Healthcare", "Developer Tools", "Enterprise Software", "Consumer",
   "Commerce", "Data & Analytics", "Security", "Infrastructure", "Climate & Energy",
   "Industrials", "Media & Entertainment", "Education", "Real Estate", "Legal"]

def ALL_CATEGORIES : List String :=
  ["Payments", "Lending", "Embedded Finance", "Banking Infrastructure", "Wealth Management",
   "Insurance Tech", "Accounting & Expense", "Capital Markets", "Crypto & Digital Assets",
   "Financial Planning", "Credit & Risk", "Corporate Cards",
   "Digital Health", "Telehealth", "Clinical Software", "Healthcare Analytics", "Mental Health",
   "Drug Discovery", "Medical Devices", "Health Insurance", "Patient Engagement",
   "Electronic Health Records", "Diagnostics", "Genomics",
   "Engineering Tools", "DevOps & CI/CD", "Code Collaboration", "Testing & QA",
   "API Development", "Monitoring & Observability", "Database Tools", "Version Control",
   "Low-Code / No-Code", "AI Development Tools", "Documentation", "Developer Experience",
   "Project Management", "Collaboration", "Productivity", "CRM", "ERP", "HR & People Ops",
   "Customer Support", "Communication", "Business Intelligence", "Workflow Automation",
   "Knowledge Management", "Contract Management",
   "Social", "Dating", "Fitness & Wellness", "Personal Finance", "Food & Delivery", "Travel",
   "Entertainment", "Gaming", "Music", "News & Media", "Photography", "Lifestyle",
   "E-commerce Platform", "Retail Tech", "Marketplace", "Inventory & Fulfillment",
   "Supply Chain", "Wholesale & Distribution", "Point of Sale", "Subscription Commerce",
   "Social Commerce", "B2B Commerce", "Logistics", "Last-Mile Delivery",
   "Business Intelligence", "Data Infrastructure", "Data Integration",
   "Machine Learning Platform", "Data Governance", "Customer Analytics", "Product Analytics",
   "Marketing Analytics", "Predictive Analytics", "Data Visualization", "ETL & Data Pipelines",
   "AI/ML Infrastructure",
   "Identity & Access", "Endpoint Security", "Cloud Security", "Application Security",
   "Network Security", "Threat Detection", "Compliance & GRC", "Fraud Prevention",
   "Privacy & Data Protection", "Security Operations", "Vulnerability Management",
   "Authentication",
   "Cloud Infrastructure", "Compute", "Storage", "Networking", "Edge Computing", "Serverless",
   "Container Orchestration", "Infrastructure as Code", "CDN & Performance",
   "Messaging & Queues", "API Infrastructure", "Platform Engineering",
   "Clean Energy", "Carbon Management", "Energy Storage", "Electric Vehicles",
   "Sustainable Materials", "Climate Analytics", "Energy Efficiency", "Renewable Energy",
   "Grid Technology", "Water Tech", "Waste Management", "AgTech",
   "Manufacturing", "Robotics", "Construction Tech", "Supply Chain", "Fleet Management",
   "Asset Management", "Facilities Management", "Industrial IoT", "Quality Control",
   "Procurement", "Field Service", "3D Printing",
   "Streaming", "Gaming", "Content Creation", "Advertising Tech", "Influencer Marketing",
   "Podcasting", "Video Production", "Publishing", "Live Events", "Sports Tech", "AR/VR",
   "Music Tech",
   "EdTech", "Learning Management", "Online Learning", "Corporate Training", "Tutoring",
   "Test Prep", "Early Childhood", "Higher Education", "Skills Development", "Credentialing",
   "Education Analytics", "Student Success",
   "Property Tech", "Property Management", "Real Estate Marketplace", "Mortgage Tech",
   "Commercial Real Estate", "Construction Tech", "Smart Buildings", "Rental Tech",
   "Real Estate Analytics", "Title & Escrow", "Home Services", "Co-living / Co-working",
   "Legal Practice Management", "Contract Management", "E-Discovery", "Legal Research",
   "Compliance", "IP Management", "Legal Marketplace", "Document Automation",
   "Litigation Support", "Regulatory Tech", "Legal Analytics", "Court Tech"]

def BUSINESS_MODELS : List String :=
  ["SaaS", "Marketplace", "Platform", "API-First", "Infrastructure", "Consumer App",
   "Hardware", "Services", "Open Source", "Freemium", "B2B", "B2C", "B2B2C", "Enterprise",
   "SMB", "Usage-Based", "Subscription", "Transactional"]

/-! ## Pure helpers of src/lib/agent/orchestrator.ts -/

def LOOP_LIMITS_maxIterations : Nat := 10
def LOOP_LIMITS_maxToolCalls : Nat := 40
def EXACT_SHORT_CIRCUIT_THRESHOLD : Rat := mkRat 95 100
def ANCHOR_MATCH_THRESHOLD : Rat := mkRat 8 10

/-- `normalizeLooseText`: lowercase, keep only `[a-z0-9]`. -/
def normalizeLooseText (s : String) : String :=
  String.mk ((jsToLower s).toList.filter (fun c => ('a' ≤ c ∧ c ≤ 'z') ∨ ('0' ≤ c ∧ c ≤ '9')))

/-- `dedupeStrings`: trim every value, drop the empty ones, deduplicate in
insertion order. -/
def dedupeStrings (values : List String) : List String :=
  dedupFirst ((values.map jsTrim).filter (· ≠ ""))

/-- The similarity-phrase test used by `isAnchorPlaceholderQuery`
(`/\b(like|similar|competitor|alternative|alternatives|vs|versus)\b/i`). -/
def hasSimilarityPhrase (query : String) : Bool :=
  ["like", "similar", "competitor", "alternative", "alternatives", "vs", "versus"].any
    (fun kw => containsToken kw (jsToLower query))

/-- `isAnchorPlaceholderQuery`. -/
def isAnchorPlaceholderQuery (query anchorCompanyName : String) : Bool :=
  let anchorNorm := normalizeLooseText anchorCompanyName
  if anchorNorm = "" then false
  else hasSimilarityPhrase query && containsSubstr (normalizeLooseText query) anchorNorm

/-- `buildAnchorFallbackQueries`. -/
def buildAnchorFallbackQueries (anchorCompany : Company) : List String :=
  let topNiches := String.intercalate " " (anchorCompany.niches.take 3)
  let topCategory := anchorCompany.categories.head?.getD ""
  let topSector := anchorCompany.sectors.head?.getD ""
  let queries :=
    (if topNiches ≠ "" then [topNiches ++ " startups", topNiches ++ " companies"] else [])
    ++ (if topSector ≠ "" ∨ topCategory ≠ "" then [jsTrim (topSector ++ " " ++ topCategory)] else [])
  let profileSentence :=
    anchorCompany.product_description.getD
      (anchorCompany.problem_solved.getD
        (anchorCompany.description.getD (anchorCompany.tagline.getD "")))
  let queries := queries ++ (if profileSentence ≠ "" then [profileSentence] else [])
  (dedupeStrings queries).take 4

/-- `mergeCandidates`/`buildCandidateMap` merge of one incoming candidate
into the existing aggregate for the same entity: element-wise max of the
score fields, set union of the evidence lists. -/
def mergeCandidate (current candidate : SearchCandidate) : SearchCandidate :=
  { current with
    semanticScore := max current.semanticScore candidate.semanticScore
    keywordScore := max current.keywordScore candidate.keywordScore
    nicheScore := max current.nicheScore candidate.nicheScore
    exactMatchScore := max current.exactMatchScore candidate.exactMatchScore
    combinedScore := max current.combinedScore candidate.combinedScore
    matchedFields := dedupFirst (current.matchedFields ++ candidate.matchedFields)
    matchedTerms := dedupFirst (current.matchedTerms ++ candidate.matchedTerms)
    evidenceChips := dedupFirst (current.evidenceChips ++ candidate.evidenceChips) }

/-- One step of `buildCandidateMap`: insert a fresh candidate or merge into
the existing entry for the same id. -/
def candInsert (existing : JsMap SearchCandidate) (candidate : SearchCandidate) :
    JsMap SearchCandidate :=
  match jsGet existing candidate.companyId with
  | none => jsSet existing candidate.companyId candidate
  | some current => jsSet existing candidate.companyId (mergeCandidate current candidate)

/-- `buildCandidateMap` (mutates `existing` in the source; value-passing here). -/
def buildCandidateMap (existing : JsMap SearchCandidate) (incoming : List SearchCandidate) :
    JsMap SearchCandidate :=
  incoming.foldl candInsert existing

/-- `defaultPlan`. -/
def defaultPlan (userMessage : String) : AgentPlan :=
  { intent := "discover"
    targetResultCount := 12
    queryVariants := [userMessage]
    searchPriorityOrder := [.exact_name, .hybrid, .keyword, .taxonomy]
    filters :=
      { statuses := ["startup"], sectors := [], categories := [], businessModels := [],
        niches := [], nicheMode := .boost }
    successCriteria := "Find highest relevance companies for the request." }

/-- `normalizeStatuses`. -/
def normalizeStatuses (statuses : List String) : List String :=
  let unique := dedupeStrings statuses
  if unique ≠ [] then unique else ["startup"]

/-- `normalizeTaxonomy`: drop plan filter values that are not in the
taxonomy allow-lists; default the statuses when emptied. -/
def normalizeTaxonomy (plan : AgentPlan) : AgentPlan :=
  { plan with
    filters :=
      { plan.filters with
        statuses := normalizeStatuses plan.filters.statuses
        sectors := plan.filters.sectors.filter (fun s => decide (s ∈ SECTORS))
        categories := plan.filters.categories.filter (fun c => decide (c ∈ ALL_CATEGORIES))
        businessModels :=
          plan.filters.businessModels.filter (fun m => decide (m ∈ BUSINESS_MODELS)) } }

/-- `filterCandidatesByPlan` (the company lookup is `companiesById[...]`). -/
def filterCandidatesByPlan (candidates : List RankedCandidate)
    (companiesById : String → Option Company) (plan : AgentPlan) : List RankedCandidate :=
  candidates.filter (fun candidate =>
    match companiesById candidate.companyId with
    | none => false
    | some company =>
      if plan.filters.statuses ≠ [] ∧ company.status ∉ plan.filters.statuses then false
      else if plan.filters.sectors ≠ [] ∧
          ¬ company.sectors.any (fun v => decide (v ∈ plan.filters.sectors)) then false
      else if plan.filters.categories ≠ [] ∧
          ¬ company.categories.any (fun v => decide (v ∈ plan.filters.categories)) then false
      else if plan.filters.businessModels ≠ [] ∧
          ¬ company.business_models.any (fun v => decide (v ∈ plan.filters.businessModels)) then
        false
      else if plan.filters.nicheMode = .must_match ∧ plan.filters.niches ≠ [] then
        let haystack :=
          jsToLower (String.intercalate " " company.niches ++ " " ++ company.description.getD ""
            ++ " " ++ company.product_description.getD "")
        plan.filters.niches.any (fun niche => containsSubstr haystack (jsToLower niche))
      else true)

/-- `sortCandidates`: stable sort by combined score descending, then assign
rank, clamped confidence, and a default reason. -/
def sortCandidates (candidates : List SearchCandidate) : List RankedCandidate :=
  (stableSortBy (fun a b => b.combinedScore < a.combinedScore) candidates).enum.map
    (fun p =>
      { toSearchCandidate := p.2
        rank := p.1 + 1
        confidence := min 1 (max 0 p.2.combinedScore)
        reason :=
          let joined := String.intercalate " · " p.2.evidenceChips
          if joined = "" then "Matched by relevance" else joined })

/-- `toSearchCandidateFromExact`. -/
def toSearchCandidateFromExact (companyId : String) (score : Rat) : SearchCandidate :=
  { companyId := companyId, semanticScore := 0, keywordScore := 0, nicheScore := 0,
    combinedScore := score, exactMatchScore := score, matchedFields := ["company_name"],
    matchedTerms := [], evidenceChips := ["Exact Name"] }

/-- `toSearchCandidateFromHybrid`. -/
def toSearchCandidateFromHybrid (row : HybridRow) : SearchCandidate :=
  { companyId := row.companyId, semanticScore := row.semanticScore,
    keywordScore := row.keywordScore, nicheScore := row.nicheScore,
    combinedScore := row.combinedScore, exactMatchScore := 0,
    matchedFields := row.matchedFields, matchedTerms := row.matchedTerms,
    evidenceChips := ["Hybrid Match"] }

/-- `toSearchCandidateFromKeyword`. -/
def toSearchCandidateFromKeyword (row : KeywordRow) : SearchCandidate :=
  { companyId := row.companyId, semanticScore := 0, keywordScore := row.keywordScore,
    nicheScore := row.nicheScore, combinedScore := row.combinedScore, exactMatchScore := 0,
    matchedFields := ["keyword"], matchedTerms := row.matchedTerms,
    evidenceChips := ["Keyword Match"] }

/-- `toSearchCandidateFromTaxonomy`. -/
def toSearchCandidateFromTaxonomy (row : TaxonomyRow) : SearchCandidate :=
  { companyId := row.companyId, semanticScore := 0, keywordScore := 0, nicheScore := 0,
    combinedScore := row.tagScore, exactMatchScore := 0, matchedFields := ["taxonomy"],
    matchedTerms := [], evidenceChips := ["Taxonomy Match"] }

/-- `converged`: order-sensitive comparison of the comma-joined first five
ids of both lists; `false` when either list is empty. -/
def converged (previousTopIds currentTopIds : List String) : Bool :=
  if previousTopIds.isEmpty || currentTopIds.isEmpty then false
  else
    String.intercalate "," (previousTopIds.take 5)
      = String.intercalate "," (currentTopIds.take 5)

/-! ## Environment: the external collaborators of one request

Every external call of `runAgenticSearch` is resolved against this record:
the completion service (planner, reranker, critic, final summary), the
embedding service, and the retrieval backend.  `Except.error msg` models the
call throwing a JS error with message `msg`; `hydrateError` fields model a
`get_companies_by_ids_v1` failure at that call site.  The company dataset
itself is the list `companies`. -/

/-- Per-iteration responses of the external services (indexed by the
iteration number through `Env.iter`; retrieval calls additionally by the
query-variant index). -/
structure IterOracle where
  runtimeExceeded : Bool
  planner : Except String AgentPlan
  embeddings : Except String (List (List Rat))
  hybrid : Nat → Except String (List HybridRow)
  keyword : Nat → Except String (List KeywordRow)
  taxonomy : Except String (List TaxonomyRow)
  hydrateError : Option String
  rerank : Except String RerankerOutput
  critic : Except String CriticOutput

structure Env where
  exactName : Nat → Except String (List ExactNameRow)
  companies : List Company
  anchorHydrateError : Option String
  iter : Nat → IterOracle
  finalHydrateError : Option String
  summary : Except String String

/-- `getCompaniesByIds`: the backend returns the stored records whose ids
were requested. -/
def getCompaniesByIds (companies : List Company) (ids : List String) : List Company :=
  companies.filter (fun c => decide (c.id ∈ ids))

/-- `Object.fromEntries(companies.map(c => [c.id, c]))[k]`: for duplicate
ids the last entry wins. -/
def companiesByIdLookup (found : List Company) (k : String) : Option Company :=
  found.reverse.find? (fun c => c.id = k)

/-- The caller-visible inputs of `runAgenticSearch`.  `userMessage` is the
source's `messages.filter(user).at(-1)?.content?.trim() ?? ""`;
`exactNameInputs` and `similarityIntent` are the values of the regex
helpers `extractAnchorNameCandidates(userMessage)` and
`isSimilarityIntent(userMessage)` (pure functions of the message whose
internals the claims do not depend on; the theorems quantify over their
outputs). -/
structure RunInput where
  userMessage : String
  exactNameInputs : List String
  similarityIntent : Bool
  previousCandidateIds : List String

/-- The mutable request state of `runAgenticSearch`: `SearchLoopState` plus
the loop-local `candidateMap`, `finalCandidates`, `finalPlan`, `endReason`
variables.  The `…Invocations` and `loggedRetrievalFailures` fields are
ghost instrumentation (not in the source): they count completion-service
calls and caught-and-logged retrieval failures so the theorems can speak
about them; they influence nothing. -/
structure LoopState where
  iteration : Nat
  toolCalls : Nat
  priorTopIds : List String
  previousBestScore : Rat
  candidateMap : JsMap SearchCandidate
  finalCandidates : List RankedCandidate
  finalPlan : AgentPlan
  endReason : EndReason
  plannerInvocations : Nat
  rerankInvocations : Nat
  criticInvocations : Nat
  loggedRetrievalFailures : Nat
deriving Repr, DecidableEq

/-- Outcome of one pass of the `for (iteration = 1; …)` body: proceed to the
next iteration, `break`, or a thrown error (which aborts the request). -/
inductive StepResult
  | next (s : LoopState)
  | brk (s : LoopState)
  | fail (s : LoopState) (msg : String)
deriving Repr, DecidableEq

/-- The state carried by a `StepResult`. -/
def StepResult.state : StepResult → LoopState
  | .next s => s
  | .brk s => s
  | .fail s _ => s

/-! ## The anchor phase (orchestrator lines 479–670) -/

/-- One pass of the exact-name precheck loop: skip empty candidate texts,
otherwise count the tool call and, on success, keep the best score per
matched company id (strictly greater replaces); a failed lookup is logged
and skipped. -/
def exactStep (E : Env) (acc : Nat × JsMap ExactNameRow) (p : Nat × String) :
    Nat × JsMap ExactNameRow :=
  if p.2 = "" then acc
  else
    let calls := acc.1 + 1
    match E.exactName p.1 with
    | .error _ => (calls, acc.2)
    | .ok rows =>
      (calls,
        rows.foldl
          (fun best row =>
            match jsGet best row.companyId with
            | some current =>
              if row.nameScore > current.nameScore then jsSet best row.companyId row else best
            | none => jsSet best row.companyId row)
          acc.2)

/-- The exact-name precheck over all extracted candidate strings, returning
the tool calls consumed and the best match per company. -/
def exactBestFold (E : Env) (inputs : List String) : Nat × JsMap ExactNameRow :=
  inputs.enum.foldl (exactStep E) (0, [])

/-- `exactMatches[0]` after sorting the per-company bests by name score
descending (stable). -/
def anchorBest (E : Env) (inp : RunInput) : Option ExactNameRow :=
  (stableSortBy (fun a b => a.nameScore > b.nameScore)
    (jsValues (exactBestFold E inp.exactNameInputs).2)).head?

/-- How the anchor phase ends. -/
inductive AnchorResolution
  | errorOut (msg : String)
  | anchored (company : Company)
  | exactShortCircuit (cand : RankedCandidate)
  | plain
deriving Repr, DecidableEq

/-- The sole high-confidence result built by the exact-name short circuit:
rank 1, confidence 0.99, reason "Exact company name match.". -/
def exactShortCircuitCand (companyId : String) (score : Rat) : RankedCandidate :=
  { toSearchCandidate := toSearchCandidateFromExact companyId score
    rank := 1
    confidence := mkRat 99 100
    reason := "Exact company name match." }

/-- Orchestrator lines 579–670: if the top exact match reaches the anchor
threshold, hydrate it (a failure there, or an empty hydration, throws); with
similarity intent it becomes the anchor, otherwise at the short-circuit
threshold it becomes the sole high-confidence result. -/
def resolveAnchor (E : Env) (inp : RunInput) (best : Option ExactNameRow) : AnchorResolution :=
  match best with
  | none => .plain
  | some topExact =>
    if ANCHOR_MATCH_THRESHOLD ≤ topExact.nameScore then
      match E.anchorHydrateError with
      | some e => .errorOut e
      | none =>
        match (getCompaniesByIds E.companies [topExact.companyId]).head? with
        | none => .errorOut "Exact matched company not found in details lookup."
        | some company =>
          if inp.similarityIntent then .anchored company
          else if EXACT_SHORT_CIRCUIT_THRESHOLD ≤ topExact.nameScore then
            .exactShortCircuit (exactShortCircuitCand company.id topExact.nameScore)
          else .plain
    else .plain

/-! ## One iteration of the search loop (orchestrator lines 678–1272) -/

/-- The plan actually used by an iteration: the planner output normalized
against the taxonomy and, when an anchor is active with similarity intent,
with placeholder "similar to <anchor>" variants replaced by anchor-derived
queries (falling back to the anchor queries or the raw user message). -/
def planAfterAnchor (inp : RunInput) (anchor : Option Company) (plannerOut : AgentPlan) :
    AgentPlan :=
  let plan := normalizeTaxonomy plannerOut
  match anchor, inp.similarityIntent with
  | some a, true =>
    let anchorFallbackQueries := buildAnchorFallbackQueries a
    let filteredPlannerQueries :=
      plan.queryVariants.filter (fun q => ¬ isAnchorPlaceholderQuery q a.company_name)
    let qv := (dedupeStrings (filteredPlannerQueries ++ anchorFallbackQueries)).take 6
    let qv :=
      if qv = [] then
        if anchorFallbackQueries ≠ [] then anchorFallbackQueries else [inp.userMessage]
      else qv
    { plan with queryVariants := qv }
  | _, _ => plan

/-- The deduplicated, capped query list executed by an iteration. -/
def iterQueries (plan : AgentPlan) : List String :=
  (dedupeStrings plan.queryVariants).take 6

/-- The hybrid strategy for one query variant: runs only when the plan
enables hybrid search and the query embedding is nonempty; the tool call is
counted, a failure leaves the candidate map untouched and is logged, a
success merges the anchor-filtered rows. -/
def hybridStep (O : IterOracle) (plan : AgentPlan) (anchor : Option Company)
    (embeddings : List (List Rat)) (qIdx : Nat) (s : LoopState) : LoopState :=
  let queryEmbedding := (embeddings.get? qIdx).getD ((embeddings.get? 0).getD [])
  if SearchStrategy.hybrid ∈ plan.searchPriorityOrder ∧ queryEmbedding ≠ [] then
    let s := { s with toolCalls := s.toolCalls + 1 }
    match O.hybrid qIdx with
    | .ok rows =>
      let filtered := rows.filter (fun row => ¬ anchor.any (fun a => a.id = row.companyId))
      { s with candidateMap :=
          buildCandidateMap s.candidateMap (filtered.map toSearchCandidateFromHybrid) }
    | .error _ => { s with loggedRetrievalFailures := s.loggedRetrievalFailures + 1 }
  else s

/-- The keyword (lexical) strategy for one query variant, same failure
policy as `hybridStep`. -/
def keywordStep (O : IterOracle) (plan : AgentPlan) (anchor : Option Company) (qIdx : Nat)
    (s : LoopState) : LoopState :=
  if SearchStrategy.keyword ∈ plan.searchPriorityOrder then
    let s := { s with toolCalls := s.toolCalls + 1 }
    match O.keyword qIdx with
    | .ok rows =>
      let filtered := rows.filter (fun row => ¬ anchor.any (fun a => a.id = row.companyId))
      { s with candidateMap :=
          buildCandidateMap s.candidateMap (filtered.map toSearchCandidateFromKeyword) }
    | .error _ => { s with loggedRetrievalFailures := s.loggedRetrievalFailures + 1 }
  else s

/-- Body of the per-query loop: hybrid then keyword. -/
def queryStep (O : IterOracle) (plan : AgentPlan) (anchor : Option Company)
    (embeddings : List (List Rat)) (qIdx : Nat) (s : LoopState) : LoopState :=
  keywordStep O plan anchor qIdx (hybridStep O plan anchor embeddings qIdx s)

/-- The per-query loop, with the tool-call budget checked at the top of
every pass. -/
def queryLoop (O : IterOracle) (plan : AgentPlan) (anchor : Option Company)
    (embeddings : List (List Rat)) : List Nat → LoopState → LoopState
  | [], s => s
  | qIdx :: rest, s =>
    if LOOP_LIMITS_maxToolCalls ≤ s.toolCalls then s
    else queryLoop O plan anchor embeddings rest (queryStep O plan anchor embeddings qIdx s)

/-- The single taxonomy call of an iteration: runs only when the plan lists
the taxonomy strategy and at least one of sectors/categories/business
models is nonempty; same failure policy as the other strategies. -/
def taxonomyStep (O : IterOracle) (plan : AgentPlan) (anchor : Option Company)
    (s : LoopState) : LoopState :=
  if SearchStrategy.taxonomy ∈ plan.searchPriorityOrder ∧
      (plan.filters.sectors ≠ [] ∨ plan.filters.categories ≠ [] ∨
        plan.filters.businessModels ≠ []) then
    let s := { s with toolCalls := s.toolCalls + 1 }
    match O.taxonomy with
    | .ok rows =>
      let filtered := rows.filter (fun row => ¬ anchor.any (fun a => a.id = row.companyId))
      { s with candidateMap :=
          buildCandidateMap s.candidateMap (filtered.map toSearchCandidateFromTaxonomy) }
    | .error _ => { s with loggedRetrievalFailures := s.loggedRetrievalFailures + 1 }
  else s

/-- All retrieval work of one iteration: the per-query hybrid/keyword calls
followed by the taxonomy call. -/
def retrievalPhase (O : IterOracle) (plan : AgentPlan) (anchor : Option Company)
    (embeddings : List (List Rat)) (s : LoopState) : LoopState :=
  taxonomyStep O plan anchor
    (queryLoop O plan anchor embeddings (List.range (iterQueries plan).length) s)

/-- Orchestrator lines 1027–1081: sort the candidate map by combined score,
keep the top 80, hydrate them, apply the plan's deterministic filters, keep
the top 40, and drop the anchor. -/
def rankedAfterFilters (companies : List Company) (anchor : Option Company)
    (plan : AgentPlan) (cmap : JsMap SearchCandidate) : List RankedCandidate :=
  let ranked := (sortCandidates (jsValues cmap)).take 80
  let found := getCompaniesByIds companies (ranked.map (·.companyId))
  let ranked := (filterCandidatesByPlan ranked (companiesByIdLookup found) plan).take 40
  match anchor with
  | some a => ranked.filter (fun c => c.companyId ≠ a.id)
  | none => ranked

/-- Orchestrator lines 1139–1158: reorder the candidates to the reranker's
id order (ids missing from it map to 999 and sink to the end, stably), then
overlay rank, confidence, reason and evidence chips. -/
def applyRerank (rr : RerankerOutput) (ranked : List RankedCandidate) :
    List RankedCandidate :=
  let idxOf := fun (cid : String) =>
    match rr.rankedCompanyIds.indexOf? cid with
    | some i => i
    | none => 999
  let sorted := stableSortBy (fun a b => idxOf a.companyId < idxOf b.companyId) ranked
  sorted.enum.map (fun p =>
    match (rr.perCompany.reverse.find? (fun item => item.companyId = p.2.companyId)) with
    | some item =>
      { p.2 with
        rank := p.1 + 1
        confidence := item.confidence
        reason := item.reason
        evidenceChips :=
          if item.evidenceChips ≠ [] then item.evidenceChips else p.2.evidenceChips }
    | none => { p.2 with rank := p.1 + 1 })

/-- Orchestrator lines 1180–1271, after the critic call succeeds: record the
candidates, update `priorTopIds`, then stop with `confidence_met` when the
critic says stop with reranker confidence ≥ 0.74, else stop with
`converged` when the top-5 ids repeat, else union in the critic's new query
variants (capped at 8) and track the best score. -/
def afterCritic (s : LoopState) (ranked : List RankedCandidate) (rr : RerankerOutput)
    (cr : CriticOutput) : StepResult :=
  let topIds := (ranked.take 5).map (·.companyId)
  let topScores := (ranked.take 5).map (·.combinedScore)
  let convergedNow := converged s.priorTopIds topIds
  let s := { s with finalCandidates := ranked, priorTopIds := topIds }
  if cr.decision = .stop ∧ mkRat 74 100 ≤ rr.confidence then
    .brk { s with endReason := .confidence_met }
  else if convergedNow then
    .brk { s with endReason := .converged }
  else
    let s :=
      if cr.decision = .cont ∧ cr.newQueryVariants ≠ [] then
        { s with finalPlan :=
            { s.finalPlan with
              queryVariants :=
                (dedupFirst (s.finalPlan.queryVariants ++ cr.newQueryVariants)).take 8 } }
      else s
    .next { s with previousBestScore := max s.previousBestScore (topScores.head?.getD 0) }

/-- The tail of one loop pass after retrieval: hydrate (a failure aborts),
apply the deterministic filters, skip rerank/critic when nothing is left,
otherwise rerank and critique (failures abort) and decide. -/
def iterTail (E : Env) (O : IterOracle) (anchor : Option Company) (plan : AgentPlan)
    (s : LoopState) : StepResult :=
  match O.hydrateError with
  | some e => .fail s e
  | none =>
    let ranked := rankedAfterFilters E.companies anchor plan s.candidateMap
    if ranked.isEmpty then .next s
    else
      let s :=
        { s with
          toolCalls := s.toolCalls + 1
          rerankInvocations := s.rerankInvocations + 1 }
      match O.rerank with
      | .error e => .fail s e
      | .ok rr =>
        let ranked := applyRerank rr ranked
        let s :=
          { s with
            toolCalls := s.toolCalls + 1
            criticInvocations := s.criticInvocations + 1 }
        match O.critic with
        | .error e => .fail s e
        | .ok cr => afterCritic s ranked rr cr

/-- One full pass of the plan → retrieve → hydrate/filter → rerank → critic
body, including the guardrail check at the top of the iteration.  Planner,
embedding, hydrate, reranker and critic failures abort (`.fail`); retrieval
failures do not. -/
def iterStep (E : Env) (inp : RunInput) (anchor : Option Company) (i : Nat)
    (s : LoopState) : StepResult :=
  let s := { s with iteration := i }
  let O := E.iter i
  if O.runtimeExceeded = true ∨ LOOP_LIMITS_maxToolCalls ≤ s.toolCalls then
    .brk { s with endReason := .guardrail_hit }
  else
    let s :=
      { s with
        toolCalls := s.toolCalls + 1
        plannerInvocations := s.plannerInvocations + 1 }
    match O.planner with
    | .error e => .fail s e
    | .ok plannerOut =>
      let plan := planAfterAnchor inp anchor plannerOut
      let s := { s with finalPlan := plan, toolCalls := s.toolCalls + 1 }
      match O.embeddings with
      | .error e => .fail s e
      | .ok embeddings => iterTail E O anchor plan (retrievalPhase O plan anchor embeddings s)

/-- The `for (iteration = 1; iteration <= maxIterations; …)` loop over a
list of iteration numbers, stopping on `break` and propagating a thrown
error together with the state at the throw. -/
def runIters (E : Env) (inp : RunInput) (anchor : Option Company) :
    List Nat → LoopState → LoopState × Option String
  | [], s => (s, none)
  | i :: rest, s =>
    match iterStep E inp anchor i s with
    | .next s' => runIters E inp anchor rest s'
    | .brk s' => (s', none)
    | .fail s' e => (s', some e)

/-! ## Finalization and the whole request (orchestrator lines 375–1482) -/

/-- One entry of the final answer's reference list. -/
structure Reference where
  companyId : String
  companyName : String
  reason : String
  inlineDescription : String
  evidenceChips : List String
  confidence : Rat
deriving Repr, DecidableEq

structure Telemetry where
  iterationCount : Nat
  toolCallCount : Nat
  endReason : EndReason
deriving Repr, DecidableEq

/-- `FinalAnswerPayload` (`companiesById` kept as the hydrated record
list). -/
structure FinalAnswerPayload where
  content : String
  references : List Reference
  companiesById : List Company
  telemetry : Telemetry
deriving Repr, DecidableEq

/-- The content of the run's final `search_runs` telemetry row
(`finalizeRun`). -/
structure Recorded where
  statusScope : List String
  iterationCount : Nat
  toolCallCount : Nat
  finalCandidateCount : Nat
  endReason : EndReason
deriving Repr, DecidableEq

/-- Result of one request: the returned payload or the rethrown error,
the final telemetry row (none only when the empty-message check throws
before the run row exists), the anchor in effect, and the final loop state
(which carries the ghost instrumentation). -/
instance {ε α : Type} [DecidableEq ε] [DecidableEq α] : DecidableEq (Except ε α) := fun a b =>
  match a, b with
  | .ok x, .ok y => if h : x = y then .isTrue (by rw [h]) else .isFalse (by simp [h])
  | .error x, .error y => if h : x = y then .isTrue (by rw [h]) else .isFalse (by simp [h])
  | .ok _, .error _ => .isFalse (by simp)
  | .error _, .ok _ => .isFalse (by simp)

structure RunResult where
  outcome : Except String FinalAnswerPayload
  recorded : Option Recorded
  anchorCompany : Option Company
  state : LoopState
deriving Repr, DecidableEq

def noMatchContent : String :=
  "I could not find a confident match in the current company dataset. Try adding sector, category, or a specific company name."

/-- Orchestrator lines 1275–1472: the finalizer.  Empty candidate set →
no-match payload; otherwise exclude the anchor, keep the top
`max 1 targetResultCount`, hydrate, generate the summary (one more tool
call), and build the references (anchor-similarity chip first, confidence
rounded to 3 decimals).  Returns the state (the summary call mutates
`toolCalls` before it can fail) and either the thrown error or the payload
with its `finalizeRun` row. -/
def finalizePhase (E : Env) (anchor : Option Company) (s : LoopState) :
    LoopState × Except String (FinalAnswerPayload × Recorded) :=
  if s.finalCandidates.isEmpty then
    (s, .ok
      ({ content := noMatchContent
         references := []
         companiesById := []
         telemetry :=
           { iterationCount := s.iteration, toolCallCount := s.toolCalls,
             endReason := s.endReason } },
       { statusScope := s.finalPlan.filters.statuses
         iterationCount := s.iteration
         toolCallCount := s.toolCalls
         finalCandidateCount := 0
         endReason := s.endReason }))
  else
    let filteredFinalCandidates : List RankedCandidate :=
      match anchor with
      | some a => s.finalCandidates.filter (fun c => c.companyId ≠ a.id)
      | none => s.finalCandidates
    let finalTop := filteredFinalCandidates.take (max 1 s.finalPlan.targetResultCount).toNat
    if finalTop.isEmpty then
      (s, .ok
        ({ content :=
             match anchor with
             | some a =>
               "I found " ++ a.company_name
                 ++ " as the anchor company, but could not find strong similar companies in the current dataset."
             | none => noMatchContent
           references := []
           companiesById := []
           telemetry :=
             { iterationCount := s.iteration, toolCallCount := s.toolCalls,
               endReason := s.endReason } },
         { statusScope := s.finalPlan.filters.statuses
           iterationCount := s.iteration
           toolCallCount := s.toolCalls
           finalCandidateCount := 0
           endReason := s.endReason }))
    else
      match E.finalHydrateError with
      | some e => (s, .error e)
      | none =>
        let finalCompanies := getCompaniesByIds E.companies (finalTop.map (·.companyId))
        let s := { s with toolCalls := s.toolCalls + 1 }
        match E.summary with
        | .error e => (s, .error e)
        | .ok text =>
          let references : List Reference :=
            finalTop.filterMap (fun (cand : RankedCandidate) =>
              (companiesByIdLookup finalCompanies cand.companyId).map
                (fun (company : Company) =>
                  let inlineDescription :=
                    company.description.getD (company.product_description.getD cand.reason)
                  { companyId := company.id
                    companyName := company.company_name
                    reason := inlineDescription
                    inlineDescription := inlineDescription
                    evidenceChips :=
                      (dedupFirst
                        ((match anchor with
                          | some a => ["Similar to " ++ a.company_name]
                          | none => []) ++ cand.evidenceChips)).take 4
                    confidence := roundTo3 cand.confidence }))
          (s, .ok
            ({ content := text
               references := references
               companiesById := finalCompanies
               telemetry :=
                 { iterationCount := s.iteration, toolCallCount := s.toolCalls,
                   endReason := s.endReason } },
             { statusScope := s.finalPlan.filters.statuses
               iterationCount := s.iteration
               toolCallCount := s.toolCalls
               finalCandidateCount := references.length
               endReason := s.endReason }))

/-- The loop state at request start (`state` of orchestrator lines 386–392
plus the loop-local variables at their declarations). -/
def initialLoopState (inp : RunInput) (anchorToolCalls : Nat) : LoopState :=
  { iteration := 0
    toolCalls := anchorToolCalls
    priorTopIds := inp.previousCandidateIds
    previousBestScore := 0
    candidateMap := []
    finalCandidates := []
    finalPlan := defaultPlan inp.userMessage
    endReason := .guardrail_hit
    plannerInvocations := 0
    rerankInvocations := 0
    criticInvocations := 0
    loggedRetrievalFailures := 0 }

/-- The `finalizeRun` row written by the outer `catch` (end reason
`error`). -/
def catchRecorded (s : LoopState) : Recorded :=
  { statusScope :=
      if s.finalPlan.filters.statuses ≠ [] then s.finalPlan.filters.statuses else ["startup"]
    iterationCount := s.iteration
    toolCallCount := s.toolCalls
    finalCandidateCount := 0
    endReason := .error }

/-- The loop state handed to the finalizer by the exact-name short circuit:
the single exact-match candidate with end reason `exact_match`. -/
def exactShortCircuitState (s0 : LoopState) (cand : RankedCandidate) : LoopState :=
  { s0 with
    finalCandidates := [cand]
    endReason := .exact_match }

/-- Package the finalizer's outcome as the request result (the `catch`
records end reason `error` and rethrows). -/
def finishRun (anchor : Option Company)
    (fin : LoopState × Except String (FinalAnswerPayload × Recorded)) : RunResult :=
  match fin.2 with
  | .error e =>
    { outcome := .error e, recorded := some (catchRecorded fin.1), anchorCompany := anchor,
      state := fin.1 }
  | .ok (payload, rec) =>
    { outcome := .ok payload, recorded := some rec, anchorCompany := anchor, state := fin.1 }

/-- Run the iteration loop and then the finalizer (the non-short-circuit
path of the request). -/
def loopAndFinish (E : Env) (inp : RunInput) (anchor : Option Company) (s0 : LoopState) :
    RunResult :=
  let r := runIters E inp anchor (List.range' 1 LOOP_LIMITS_maxIterations) s0
  match r.2 with
  | some e =>
    { outcome := .error e, recorded := some (catchRecorded r.1), anchorCompany := anchor,
      state := r.1 }
  | none => finishRun anchor (finalizePhase E anchor r.1)

/-- `runAgenticSearch` of `src/lib/agent/orchestrator.ts`: empty message →
throw before the run row exists; then the anchor phase, the exact-name
short circuit or the iteration loop, and the finalizer. -/
def runAgenticSearch (E : Env) (inp : RunInput) : RunResult :=
  if inp.userMessage = "" then
    { outcome := .error "No user message found for search."
      recorded := none
      anchorCompany := none
      state := initialLoopState inp 0 }
  else
    let anchorCalls := (exactBestFold E inp.exactNameInputs).1
    let s0 := initialLoopState inp anchorCalls
    match resolveAnchor E inp (anchorBest E inp) with
    | .errorOut e =>
      { outcome := .error e, recorded := some (catchRecorded s0), anchorCompany := none,
        state := s0 }
    | .exactShortCircuit cand =>
      finishRun none (finalizePhase E none (exactShortCircuitState s0 cand))
    | .anchored company => loopAndFinish E inp (some company) s0
    | .plain => loopAndFinish E inp none s0


/-! ## Clarification sessions (agentic orchestrator in src/lib/agent/prompts.ts) -/

def CLARIFICATION_TIMEOUT_MS : Int := 5 * 60 * 1000

/-- The per-session record kept in the in-memory `pendingClarifications`
map while a request is suspended on a clarification (only the fields the
store logic reads are modelled; the suspended agent state is opaque here). -/
structure PendingClarification where
  sessionId : String
  startedAtMs : Int
  runId : String
deriving Repr, DecidableEq

/-- `cleanupExpiredClarifications`: the periodic sweeper deletes every
session older than the TTL. -/
def cleanupExpiredClarifications (now : Int) (store : JsMap PendingClarification) :
    JsMap PendingClarification :=
  store.filter (fun p => ¬ (CLARIFICATION_TIMEOUT_MS < now - p.2.startedAtMs))

/-- How `resumeAgentWithClarification` starts: either the session-expired
fallback (no agent work happens) or the resumed session with the store
entry consumed. -/
inductive ResumeStart
  | expired (content : String) (references : List Reference)
  | resumed (pending : PendingClarification) (store : JsMap PendingClarification)
deriving Repr, DecidableEq

/-- The head of `resumeAgentWithClarification`: look the session id up in
the store; if absent, return the session-expired fallback payload (empty
references) without touching anything else; otherwise delete the entry and
resume.  Presence is the only check — the entry's age is not consulted. -/
def resumeStart (store : JsMap PendingClarification) (sessionId : String) : ResumeStart :=
  match jsGet store sessionId with
  | none => .expired "Session expired. Please start a new search." []
  | some pending => .resumed pending (store.filter (fun p => p.1 ≠ sessionId))

/-! ## User-visible failure text (src/lib/search/rpc.ts `runRpc`, the
agentic orchestrator `catch` in src/lib/agent/prompts.ts, and the chat API
route `catch`) -/

def schemaMismatchMarker : String :=
  "structure of query does not match function result type"

def migrationHint : String := " Apply Supabase migration 0002_rpc_type_fixes.sql."

/-- The message of the error thrown by `runRpc` when a retrieval RPC fails:
the function name, the backend's error text verbatim, and — only in the
schema-mismatch case — the apply-pending-migration hint. -/
def runRpcErrorMessage (fn backendMessage : String) : String :=
  fn ++ " failed: " ++ backendMessage
    ++ (if containsSubstr backendMessage schemaMismatchMarker then migrationHint else "")

/-- The user-visible `content` of the fallback payload built by the agentic
orchestrator's `catch` (`src/lib/agent/prompts.ts`, `runAgenticSearch` /
`resumeAgentWithClarification`): `"Search failed: " + error.message`. -/
def agentCatchContent (errorMessage : String) : String :=
  "Search failed: " ++ errorMessage

/-- Modelled from the spec: `SEARCH_UNAVAILABLE_MESSAGE` of
`src/lib/search/user-facing-errors.ts` (the module is imported by the chat
route but absent from the source tree) — the stable, generic user-facing
"search unavailable" string, independent of any internal error. -/
def SEARCH_UNAVAILABLE_MESSAGE : String :=
  "Search is temporarily unavailable. Please try again."

/-- The chat API route's `catch` (POST /api/chat): any error thrown out of
the search maps to the stable generic message. -/
def chatRouteErrorEventMessage (_errorMessage : String) : String :=
  SEARCH_UNAVAILABLE_MESSAGE


/-! ## Definitions used by the specification statements -/

/-! ## Concrete fixtures for the witnesses -/

/-- A hybrid-style candidate for entity `c1`. -/
def candA : SearchCandidate :=
  { companyId := "c1", semanticScore := mkRat 1 2, keywordScore := 0, nicheScore := 0,
    combinedScore := mkRat 1 2, exactMatchScore := 0, matchedFields := ["description"],
    matchedTerms := ["payments"], evidenceChips := ["Hybrid Match"] }

/-- A keyword-style candidate for entity `c1`. -/
def candB : SearchCandidate :=
  { companyId := "c1", semanticScore := 0, keywordScore := mkRat 3 4, nicheScore := 0,
    combinedScore := mkRat 3 4, exactMatchScore := 0, matchedFields := ["keyword"],
    matchedTerms := ["payments", "checkout"], evidenceChips := ["Keyword Match"] }

/-- A reranked candidate fixture for entity `c1`. -/
def rcand1 : RankedCandidate :=
  { toSearchCandidate := candA, rank := 1, confidence := mkRat 1 2, reason := "match" }

/-- A run input fixture: previous ids seeded with `c1`. -/
def inp0 : RunInput :=
  { userMessage := "fintech startups", exactNameInputs := [], similarityIntent := false,
    previousCandidateIds := ["c1"] }

/-- A loop state fixture at the start of an iteration whose previous top-5
ids are `["c1"]`. -/
def stateC3 : LoopState := initialLoopState inp0 0

/-- A reranker output fixture with sub-threshold confidence. -/
def rrLow : RerankerOutput :=
  { confidence := mkRat 1 2, rankedCompanyIds := ["c1"], perCompany := [] }

/-- A critic output fixture voting continue. -/
def crCont : CriticOutput :=
  { decision := .cont, why := "keep going", confidenceTargetMet := false,
    shouldExpandQueries := false, newQueryVariants := [] }

/-- A company fixture matching candidate `c1`. -/
def comp1 : Company :=
  { id := "c1", company_name := "Acme Pay", status := "startup", tagline := none,
    description := some "Payments platform.", product_description := none,
    target_customer := none, problem_solved := none, differentiator := none,
    niches := ["payments"], sectors := ["Fintech"], categories := ["Payments"],
    business_models := ["SaaS"] }

/-- An iteration oracle fixture whose wall clock is already exceeded. -/
def oracleStub : IterOracle :=
  { runtimeExceeded := true, planner := .error "planner down",
    embeddings := .error "embedding down", hybrid := fun _ => .error "hybrid down",
    keyword := fun _ => .error "keyword down", taxonomy := .error "taxonomy down",
    hydrateError := none, rerank := .error "reranker down", critic := .error "critic down" }

/-- An environment fixture with one company and a timed-out iteration. -/
def envStub : Env :=
  { exactName := fun _ => .ok [], companies := [comp1], anchorHydrateError := none,
    iter := fun _ => oracleStub, finalHydrateError := none, summary := .ok "Summary." }

/-- A loop state holding one accumulated candidate after a guardrail break. -/
def stateWithCandidates : LoopState :=
  { stateC3 with finalCandidates := [rcand1], endReason := .guardrail_hit }

/-- A plan fixture: hybrid plus keyword over startup status. -/
def planFix : AgentPlan :=
  { intent := "discover", targetResultCount := 5, queryVariants := ["fintech payments"],
    searchPriorityOrder := [.hybrid, .keyword], filters :=
      { statuses := ["startup"], sectors := [], categories := [], businessModels := [],
        niches := [], nicheMode := .boost },
    successCriteria := "Find payments startups." }

/-- An iteration oracle whose planner call fails. -/
def oraclePlannerFail : IterOracle :=
  { oracleStub with runtimeExceeded := false }

/-- An environment whose every iteration has a failing planner. -/
def envPlannerCrash : Env :=
  { envStub with iter := fun _ => oraclePlannerFail }

/-- An iteration oracle whose reranker call fails after a successful
retrieval. -/
def oracleRerankFail : IterOracle :=
  { runtimeExceeded := false, planner := .ok planFix, embeddings := .ok [[1]],
    hybrid := fun _ => .ok [], keyword := fun _ => .ok [], taxonomy := .ok [],
    hydrateError := none, rerank := .error "reranker down", critic := .error "critic down" }

/-- A loop state already holding candidate `c1` in its candidate map. -/
def stateWithMap : LoopState := { stateC3 with candidateMap := [("c1", candA)] }

/-- A reranker output fixture with high confidence. -/
def rrFix : RerankerOutput :=
  { confidence := mkRat 9 10, rankedCompanyIds := ["c1"],
    perCompany := [{ companyId := "c1", reason := "strong match",
                     inlineDescription := "Payments platform.",
                     evidenceChips := ["Payments"], confidence := mkRat 9 10 }] }

/-- A critic output fixture voting stop. -/
def crStop : CriticOutput :=
  { decision := .stop, why := "confident", confidenceTargetMet := true,
    shouldExpandQueries := false, newQueryVariants := [] }

/-- An iteration oracle whose retrieval calls all fail while the completion
calls succeed. -/
def oracleRetrFail : IterOracle :=
  { runtimeExceeded := false, planner := .ok planFix, embeddings := .ok [[1]],
    hybrid := fun _ => .error "hybrid down", keyword := fun _ => .error "keyword down",
    taxonomy := .error "taxonomy down", hydrateError := none, rerank := .ok rrFix,
    critic := .ok crStop }

/-- An environment whose retrieval calls all fail. -/
def envRetrFail : Env :=
  { envStub with
    iter := fun _ => oracleRetrFail
    exactName := fun _ => .error "exact down" }

/-- An exact-name row fixture: entity `c1` at name score 0.97. -/
def rowExact : ExactNameRow :=
  { companyId := "c1", nameScore := mkRat 97 100, matchedName := "Acme Pay" }

/-- A run input fixture naming `Acme Pay` without similarity intent. -/
def inpExact : RunInput :=
  { userMessage := "Acme Pay", exactNameInputs := ["Acme Pay"], similarityIntent := false,
    previousCandidateIds := [] }

/-- An environment whose exact-name lookup returns the 0.97 row for `c1`. -/
def envExact : Env :=
  { envStub with exactName := fun _ => .ok [rowExact] }

/-- A second company fixture. -/
def comp2 : Company :=
  { id := "c2", company_name := "Bolt Checkout", status := "startup", tagline := none,
    description := some "Checkout platform.", product_description := none,
    target_customer := none, problem_solved := none, differentiator := none,
    niches := ["payments"], sectors := ["Fintech"], categories := ["Payments"],
    business_models := ["SaaS"] }

/-- A hybrid row returning the anchor entity `c1` with the top score. -/
def hrow1 : HybridRow :=
  { companyId := "c1", semanticScore := mkRat 9 10, keywordScore := 0, nicheScore := 0,
    combinedScore := mkRat 9 10, matchedFields := ["description"], matchedTerms := [] }

/-- A hybrid row returning entity `c2`. -/
def hrow2 : HybridRow :=
  { companyId := "c2", semanticScore := mkRat 8 10, keywordScore := 0, nicheScore := 0,
    combinedScore := mkRat 8 10, matchedFields := ["description"], matchedTerms := [] }

/-- A reranker output ranking `c1` above `c2` with high confidence. -/
def rrAnchor : RerankerOutput :=
  { confidence := mkRat 9 10, rankedCompanyIds := ["c1", "c2"], perCompany := [] }

/-- An iteration oracle whose hybrid call returns the anchor `c1` and `c2`
and whose critic stops confidently. -/
def oracleAnchorLoop : IterOracle :=
  { runtimeExceeded := false, planner := .ok planFix, embeddings := .ok [[1]],
    hybrid := fun _ => .ok [hrow1, hrow2], keyword := fun _ => .ok [], taxonomy := .ok [],
    hydrateError := none, rerank := .ok rrAnchor, critic := .ok crStop }

/-- An environment for an anchored run over the dataset `[comp1, comp2]`. -/
def envAnchorLoop : Env :=
  { exactName := fun _ => .ok [rowExact], companies := [comp1, comp2],
    anchorHydrateError := none, iter := fun _ => oracleAnchorLoop,
    finalHydrateError := none, summary := .ok "Summary." }

/-- A run input fixture with similarity intent naming `Acme Pay`. -/
def inpAnchor : RunInput :=
  { userMessage := "companies similar to Acme Pay", exactNameInputs := ["Acme Pay"],
    similarityIntent := true, previousCandidateIds := [] }

/-- The payload of the anchored run on `envAnchorLoop`: only `c2` is
referenced. -/
def payloadAnchorLoop : FinalAnswerPayload :=
  { content := "Summary."
    references :=
      [{ companyId := "c2", companyName := "Bolt Checkout", reason := "Checkout platform.",
         inlineDescription := "Checkout platform.",
         evidenceChips := ["Similar to Acme Pay", "Hybrid Match"],
         confidence := mkRat 4 5 }]
    companiesById := [comp2]
    telemetry := { iterationCount := 1, toolCallCount := 16, endReason := .confidence_met } }

/-- An iteration oracle whose hybrid call returns `c1` and whose critic
stops confidently at the first pass. -/
def oracleStopC1 : IterOracle :=
  { runtimeExceeded := false, planner := .ok planFix, embeddings := .ok [[1]],
    hybrid := fun _ => .ok [hrow1], keyword := fun _ => .ok [], taxonomy := .ok [],
    hydrateError := none, rerank := .ok rrFix, critic := .ok crStop }

/-- An environment whose first pass reranks `["c1"]` to the top and whose
critic stops confidently. -/
def envPrior : Env :=
  { exactName := fun _ => .ok [], companies := [comp1], anchorHydrateError := none,
    iter := fun _ => oracleStopC1, finalHydrateError := none, summary := .ok "Summary." }

/-- A reranked candidate fixture for entity `c1` built from the keyword
row. -/
def rcandB : RankedCandidate :=
  { toSearchCandidate := candB, rank := 1, confidence := mkRat 3 4, reason := "match" }

/-- A pending clarification fixture started at time 0. -/
def pendExpired : PendingClarification :=
  { sessionId := "s1", startedAtMs := 0, runId := "r1" }

/-- A clarification store holding only the session started at time 0. -/
def storeExpired : JsMap PendingClarification := [("s1", pendExpired)]

/-- `v` is the maximum of the list `vs`: attained and an upper bound. -/
def isMaxOf (v : Rat) (vs : List Rat) : Prop := v ∈ vs ∧ ∀ x ∈ vs, x ≤ v

end Ceejay

namespace Ceejay

/-! ## General lemmas -/

theorem foldl_dedup_mem (l : List String) (acc : List String) (x : String) :
    x ∈ l.foldl (fun acc x => if x ∈ acc then acc else acc ++ [x]) acc ↔ x ∈ acc ∨ x ∈ l := by
  induction l generalizing acc with
  | nil => simp
  | cons y ys ih =>
    simp only [List.foldl_cons]
    by_cases hy : y ∈ acc
    · rw [if_pos hy, ih]
      simp only [List.mem_cons]
      constructor
      · rintro (h | h)
        · exact Or.inl h
        · exact Or.inr (Or.inr h)
      · rintro (h | rfl | h)
        · exact Or.inl h
        · exact Or.inl hy
        · exact Or.inr h
    · rw [if_neg hy, ih]
      simp only [List.mem_append, List.mem_cons, List.mem_singleton, List.not_mem_nil,
        or_false, or_assoc]

theorem mem_dedupFirst (l : List String) (x : String) : x ∈ dedupFirst l ↔ x ∈ l := by
  have := foldl_dedup_mem l [] x
  simpa [dedupFirst] using this

theorem jsGet_jsSet_self {α : Type} (m : JsMap α) (k : String) (v : α) :
    jsGet (jsSet m k v) k = some v := by
  induction m with
  | nil => simp [jsGet, jsSet]
  | cons p rest ih =>
    by_cases h : p.1 = k
    · simp [jsSet, jsGet, h]
    · simp [jsSet, jsGet, h, ih]

theorem jsGet_jsSet_ne {α : Type} (m : JsMap α) (k k' : String) (v : α) (h : k' ≠ k) :
    jsGet (jsSet m k' v) k = jsGet m k := by
  induction m with
  | nil => simp [jsGet, jsSet, h]
  | cons p rest ih =>
    by_cases hp : p.1 = k'
    · simp [jsSet, jsGet, hp, h]
    · simp only [jsSet, hp, if_false]
      by_cases hk : p.1 = k
      · simp [jsGet, hk]
      · simp [jsGet, hk, ih]

theorem jsGet_candInsert_ne (m : JsMap SearchCandidate) (c : SearchCandidate) (k : String)
    (h : c.companyId ≠ k) : jsGet (candInsert m c) k = jsGet m k := by
  unfold candInsert
  cases jsGet m c.companyId <;> simp [jsGet_jsSet_ne _ _ _ _ h]

theorem jsGet_candInsert_none (m : JsMap SearchCandidate) (c : SearchCandidate)
    (h : jsGet m c.companyId = none) : jsGet (candInsert m c) c.companyId = some c := by
  unfold candInsert
  rw [h]
  exact jsGet_jsSet_self _ _ _

theorem jsGet_candInsert_some (m : JsMap SearchCandidate) (c cur : SearchCandidate)
    (h : jsGet m c.companyId = some cur) :
    jsGet (candInsert m c) c.companyId = some (mergeCandidate cur c) := by
  unfold candInsert
  rw [h]
  exact jsGet_jsSet_self _ _ _

theorem buildCandidateMap_get_of_some (k : String) (cs : List SearchCandidate)
    (m : JsMap SearchCandidate) (a : SearchCandidate)
    (hids : ∀ c ∈ cs, c.companyId = k) (ha : jsGet m k = some a) :
    jsGet (buildCandidateMap m cs) k = some (cs.foldl mergeCandidate a) := by
  induction cs generalizing m a with
  | nil => simpa [buildCandidateMap] using ha
  | cons c rest ih =>
    have hc : c.companyId = k := hids c (List.mem_cons_self _ _)
    have hstep : jsGet (candInsert m c) k = some (mergeCandidate a c) := by
      rw [← hc] at ha ⊢
      exact jsGet_candInsert_some m c a ha
    exact ih (candInsert m c) (mergeCandidate a c)
      (fun d hd => hids d (List.mem_cons_of_mem _ hd)) hstep

theorem mergeCandidate_mem_matchedFields (x y : SearchCandidate) (s : String) :
    s ∈ (mergeCandidate x y).matchedFields ↔ s ∈ x.matchedFields ∨ s ∈ y.matchedFields := by
  simp [mergeCandidate, mem_dedupFirst]

theorem mergeCandidate_mem_matchedTerms (x y : SearchCandidate) (s : String) :
    s ∈ (mergeCandidate x y).matchedTerms ↔ s ∈ x.matchedTerms ∨ s ∈ y.matchedTerms := by
  simp [mergeCandidate, mem_dedupFirst]

theorem mergeCandidate_mem_evidenceChips (x y : SearchCandidate) (s : String) :
    s ∈ (mergeCandidate x y).evidenceChips ↔ s ∈ x.evidenceChips ∨ s ∈ y.evidenceChips := by
  simp [mergeCandidate, mem_dedupFirst]

theorem foldl_merge_score (f : SearchCandidate → Rat)
    (hf : ∀ x y, f (mergeCandidate x y) = max (f x) (f y)) (a : SearchCandidate)
    (l : List SearchCandidate) :
    isMaxOf (f (l.foldl mergeCandidate a)) (f a :: l.map f) := by
  induction l generalizing a with
  | nil => exact ⟨List.mem_singleton_self _, by simp⟩
  | cons c rest ih =>
    obtain ⟨hmem, hub⟩ := ih (mergeCandidate a c)
    rw [hf] at hmem hub
    constructor
    · simp only [List.map_cons, List.mem_cons] at hmem ⊢
      rcases hmem with h | h
      · rcases max_choice (f a) (f c) with hm | hm
        · exact Or.inl (h.trans hm)
        · exact Or.inr (Or.inl (h.trans hm))
      · exact Or.inr (Or.inr h)
    · intro x hx
      have hmax : max (f a) (f c) ≤ f (List.foldl mergeCandidate (mergeCandidate a c) rest) :=
        hub _ (List.mem_cons_self _ _)
      simp only [List.map_cons, List.mem_cons] at hx
      rcases hx with rfl | rfl | h
      · exact le_trans (le_max_left _ _) hmax
      · exact le_trans (le_max_right _ _) hmax
      · exact hub _ (List.mem_cons_of_mem _ h)

theorem foldl_merge_mem (g : SearchCandidate → List String)
    (hg : ∀ x y s, s ∈ g (mergeCandidate x y) ↔ s ∈ g x ∨ s ∈ g y) (a : SearchCandidate)
    (l : List SearchCandidate) (s : String) :
    s ∈ g (l.foldl mergeCandidate a) ↔ s ∈ g a ∨ ∃ c ∈ l, s ∈ g c := by
  induction l generalizing a with
  | nil => simp
  | cons c rest ih =>
    simp only [List.foldl_cons]
    rw [ih, hg]
    constructor
    · rintro ((h | h) | ⟨d, hd, h⟩)
      · exact Or.inl h
      · exact Or.inr ⟨c, List.mem_cons_self _ _, h⟩
      · exact Or.inr ⟨d, List.mem_cons_of_mem _ hd, h⟩
    · rintro (h | ⟨d, hd, h⟩)
      · exact Or.inl (Or.inl h)
      · rcases List.mem_cons.mp hd with rfl | hd'
        · exact Or.inl (Or.inr h)
        · exact Or.inr ⟨d, hd', h⟩

theorem isMaxOf_unique {v w : Rat} {vs ws : List Rat} (hperm : vs.Perm ws)
    (hv : isMaxOf v vs) (hw : isMaxOf w ws) : v = w :=
  le_antisymm (hw.2 v (hperm.mem_iff.mp hv.1)) (hv.2 w (hperm.mem_iff.mpr hw.1))

/-- Characterization of the per-entity aggregate produced by
`buildCandidateMap` for a fresh entity id: every score field is the maximum
over the contributing candidates, every evidence list is their union. -/
theorem candidateAgg_spec (m : JsMap SearchCandidate) (k : String)
    (cs : List SearchCandidate) (hfresh : jsGet m k = none) (hne : cs ≠ [])
    (hids : ∀ c ∈ cs, c.companyId = k) :
    ∃ agg, jsGet (buildCandidateMap m cs) k = some agg
      ∧ isMaxOf agg.semanticScore (cs.map (·.semanticScore))
      ∧ isMaxOf agg.keywordScore (cs.map (·.keywordScore))
      ∧ isMaxOf agg.nicheScore (cs.map (·.nicheScore))
      ∧ isMaxOf agg.exactMatchScore (cs.map (·.exactMatchScore))
      ∧ isMaxOf agg.combinedScore (cs.map (·.combinedScore))
      ∧ (∀ x, x ∈ agg.matchedFields ↔ ∃ c ∈ cs, x ∈ c.matchedFields)
      ∧ (∀ x, x ∈ agg.matchedTerms ↔ ∃ c ∈ cs, x ∈ c.matchedTerms)
      ∧ (∀ x, x ∈ agg.evidenceChips ↔ ∃ c ∈ cs, x ∈ c.evidenceChips) := by
  match cs, hne with
  | c0 :: rest, _ =>
    have hc0 : c0.companyId = k := hids c0 (List.mem_cons_self _ _)
    have hstep : jsGet (candInsert m c0) k = some c0 := by
      rw [← hc0] at hfresh ⊢
      exact jsGet_candInsert_none m c0 hfresh
    have hget : jsGet (buildCandidateMap m (c0 :: rest)) k
        = some (rest.foldl mergeCandidate c0) :=
      buildCandidateMap_get_of_some k rest (candInsert m c0) c0
        (fun d hd => hids d (List.mem_cons_of_mem _ hd)) hstep
    refine ⟨rest.foldl mergeCandidate c0, hget, ?_, ?_, ?_, ?_, ?_, ?_, ?_, ?_⟩
    · simpa using foldl_merge_score (·.semanticScore) (fun _ _ => rfl) c0 rest
    · simpa using foldl_merge_score (·.keywordScore) (fun _ _ => rfl) c0 rest
    · simpa using foldl_merge_score (·.nicheScore) (fun _ _ => rfl) c0 rest
    · simpa using foldl_merge_score (·.exactMatchScore) (fun _ _ => rfl) c0 rest
    · simpa using foldl_merge_score (·.combinedScore) (fun _ _ => rfl) c0 rest
    · intro x
      rw [foldl_merge_mem (·.matchedFields) mergeCandidate_mem_matchedFields c0 rest x]
      simp
    · intro x
      rw [foldl_merge_mem (·.matchedTerms) mergeCandidate_mem_matchedTerms c0 rest x]
      simp
    · intro x
      rw [foldl_merge_mem (·.evidenceChips) mergeCandidate_mem_evidenceChips c0 rest x]
      simp

theorem buildCandidateMap_mono_combined (more : List SearchCandidate)
    (m : JsMap SearchCandidate) (k : String) (cur : SearchCandidate)
    (h : jsGet m k = some cur) :
    ∃ agg, jsGet (buildCandidateMap m more) k = some agg
      ∧ cur.combinedScore ≤ agg.combinedScore := by
  induction more generalizing m cur with
  | nil => exact ⟨cur, by simpa [buildCandidateMap] using h, le_refl _⟩
  | cons c rest ih =>
    by_cases hc : c.companyId = k
    · have hstep : jsGet (candInsert m c) k = some (mergeCandidate cur c) := by
        rw [← hc] at h ⊢
        exact jsGet_candInsert_some m c cur h
      obtain ⟨agg, hg, hle⟩ := ih (candInsert m c) (mergeCandidate cur c) hstep
      refine ⟨agg, hg, le_trans ?_ hle⟩
      exact le_max_left _ _
    · have hstep : jsGet (candInsert m c) k = some cur := by
        rw [jsGet_candInsert_ne m c k hc]
        exact h
      exact ih (candInsert m c) cur hstep


/-! ## Claim C1: candidate-map merge algebra -/

/-- **C1.** For every set of retrieval results contributed for the same
entity id within one request, the merged candidate produced by the
candidate-map merge has each score field (semantic, keyword, niche,
exact-name, combined) equal to the maximum of that field over all
contributing results, and its matched-field/matched-term/evidence sets
equal to their union; the merge is commutative and associative — any order
of the contributing calls yields the same aggregate (equal score fields,
equal evidence sets) — and a candidate's combined score is monotonically
non-decreasing as more results contribute. -/
theorem candidate_merge_max_union_order_invariant_monotone
    (m : JsMap SearchCandidate) (k : String) (cs cs' : List SearchCandidate)
    (m' : JsMap SearchCandidate) (cur : SearchCandidate) (more : List SearchCandidate)
    (hfresh : jsGet m k = none) (hne : cs ≠ []) (hids : ∀ c ∈ cs, c.companyId = k)
    (hperm : cs.Perm cs') (hcur : jsGet m' k = some cur) :
    (∃ agg, jsGet (buildCandidateMap m cs) k = some agg
      ∧ isMaxOf agg.semanticScore (cs.map (·.semanticScore))
      ∧ isMaxOf agg.keywordScore (cs.map (·.keywordScore))
      ∧ isMaxOf agg.nicheScore (cs.map (·.nicheScore))
      ∧ isMaxOf agg.exactMatchScore (cs.map (·.exactMatchScore))
      ∧ isMaxOf agg.combinedScore (cs.map (·.combinedScore))
      ∧ (∀ x, x ∈ agg.matchedFields ↔ ∃ c ∈ cs, x ∈ c.matchedFields)
      ∧ (∀ x, x ∈ agg.matchedTerms ↔ ∃ c ∈ cs, x ∈ c.matchedTerms)
      ∧ (∀ x, x ∈ agg.evidenceChips ↔ ∃ c ∈ cs, x ∈ c.evidenceChips))
    ∧ (∀ agg agg', jsGet (buildCandidateMap m cs) k = some agg →
        jsGet (buildCandidateMap m cs') k = some agg' →
        agg.semanticScore = agg'.semanticScore ∧ agg.keywordScore = agg'.keywordScore
        ∧ agg.nicheScore = agg'.nicheScore ∧ agg.exactMatchScore = agg'.exactMatchScore
        ∧ agg.combinedScore = agg'.combinedScore
        ∧ (∀ x, x ∈ agg.matchedFields ↔ x ∈ agg'.matchedFields)
        ∧ (∀ x, x ∈ agg.matchedTerms ↔ x ∈ agg'.matchedTerms)
        ∧ (∀ x, x ∈ agg.evidenceChips ↔ x ∈ agg'.evidenceChips))
    ∧ (∃ agg2, jsGet (buildCandidateMap m' more) k = some agg2
        ∧ cur.combinedScore ≤ agg2.combinedScore) := by
  have hne' : cs' ≠ [] := by
    intro h
    exact hne (List.Perm.eq_nil (h ▸ hperm))
  have hids' : ∀ c ∈ cs', c.companyId = k := fun c hc => hids c (hperm.mem_iff.mpr hc)
  refine ⟨candidateAgg_spec m k cs hfresh hne hids, ?_, buildCandidateMap_mono_combined more m' k cur hcur⟩
  intro agg agg' hagg hagg'
  obtain ⟨a1, ha1, hs1, hk1, hn1, he1, hc1, hf1, ht1, hv1⟩ := candidateAgg_spec m k cs hfresh hne hids
  obtain ⟨a2, ha2, hs2, hk2, hn2, he2, hc2, hf2, ht2, hv2⟩ := candidateAgg_spec m k cs' hfresh hne' hids'
  rw [hagg] at ha1
  rw [hagg'] at ha2
  cases Option.some.inj ha1
  cases Option.some.inj ha2
  refine ⟨isMaxOf_unique (hperm.map _) hs1 hs2, isMaxOf_unique (hperm.map _) hk1 hk2,
    isMaxOf_unique (hperm.map _) hn1 hn2, isMaxOf_unique (hperm.map _) he1 he2,
    isMaxOf_unique (hperm.map _) hc1 hc2, ?_, ?_, ?_⟩
  · intro x
    rw [hf1 x, hf2 x]
    exact ⟨fun ⟨c, hc, hx⟩ => ⟨c, hperm.mem_iff.mp hc, hx⟩,
      fun ⟨c, hc, hx⟩ => ⟨c, hperm.mem_iff.mpr hc, hx⟩⟩
  · intro x
    rw [ht1 x, ht2 x]
    exact ⟨fun ⟨c, hc, hx⟩ => ⟨c, hperm.mem_iff.mp hc, hx⟩,
      fun ⟨c, hc, hx⟩ => ⟨c, hperm.mem_iff.mpr hc, hx⟩⟩
  · intro x
    rw [hv1 x, hv2 x]
    exact ⟨fun ⟨c, hc, hx⟩ => ⟨c, hperm.mem_iff.mp hc, hx⟩,
      fun ⟨c, hc, hx⟩ => ⟨c, hperm.mem_iff.mpr hc, hx⟩⟩


/-- Witness for C1 at a concrete input: two hybrid/keyword results for the
same entity merged in both orders. -/
theorem candidate_merge_max_union_order_invariant_monotone_witness :
    (jsGet ([] : JsMap SearchCandidate) "c1" = none
      ∧ ([candA, candB] : List SearchCandidate) ≠ []
      ∧ (∀ c ∈ [candA, candB], c.companyId = "c1")
      ∧ ([candA, candB] : List SearchCandidate).Perm [candB, candA]
      ∧ jsGet [("c1", candA)] "c1" = some candA)
    ∧ ((∃ agg, jsGet (buildCandidateMap [] [candA, candB]) "c1" = some agg
        ∧ isMaxOf agg.semanticScore ([candA, candB].map (·.semanticScore))
        ∧ isMaxOf agg.keywordScore ([candA, candB].map (·.keywordScore))
        ∧ isMaxOf agg.nicheScore ([candA, candB].map (·.nicheScore))
        ∧ isMaxOf agg.exactMatchScore ([candA, candB].map (·.exactMatchScore))
        ∧ isMaxOf agg.combinedScore ([candA, candB].map (·.combinedScore))
        ∧ (∀ x, x ∈ agg.matchedFields ↔ ∃ c ∈ [candA, candB], x ∈ c.matchedFields)
        ∧ (∀ x, x ∈ agg.matchedTerms ↔ ∃ c ∈ [candA, candB], x ∈ c.matchedTerms)
        ∧ (∀ x, x ∈ agg.evidenceChips ↔ ∃ c ∈ [candA, candB], x ∈ c.evidenceChips))
      ∧ (∀ agg agg', jsGet (buildCandidateMap [] [candA, candB]) "c1" = some agg →
          jsGet (buildCandidateMap [] [candB, candA]) "c1" = some agg' →
          agg.semanticScore = agg'.semanticScore ∧ agg.keywordScore = agg'.keywordScore
          ∧ agg.nicheScore = agg'.nicheScore ∧ agg.exactMatchScore = agg'.exactMatchScore
          ∧ agg.combinedScore = agg'.combinedScore
          ∧ (∀ x, x ∈ agg.matchedFields ↔ x ∈ agg'.matchedFields)
          ∧ (∀ x, x ∈ agg.matchedTerms ↔ x ∈ agg'.matchedTerms)
          ∧ (∀ x, x ∈ agg.evidenceChips ↔ x ∈ agg'.evidenceChips))
      ∧ (∃ agg2, jsGet (buildCandidateMap [("c1", candA)] [candB]) "c1" = some agg2
          ∧ candA.combinedScore ≤ agg2.combinedScore)) :=
  ⟨⟨by decide, by decide, by decide, by decide, by decide⟩,
    candidate_merge_max_union_order_invariant_monotone [] "c1" [candA, candB] [candB, candA]
      [("c1", candA)] candA [candB] (by decide) (by decide) (by decide) (by decide) (by decide)⟩


/-! ## Claim C3: convergence terminates the loop -/

theorem take5_map_take5 {α β : Type} (l : List α) (f : α → β) :
    (((l.take 5).map f).take 5) = (l.take 5).map f := by
  rw [← List.map_take, List.take_take]
  simp

/-- **C3.** Whenever two consecutive iterations produce identical top-5 id
sequences (element-wise, order-sensitive — the previous iteration's top ids
are held in `priorTopIds`, which `afterCritic` refreshes every iteration),
the loop terminates with end reason `converged` in the second of those
iterations, and a `break` result stops `runIters` without executing any
further iteration; the critic-stop-with-confidence rule (critic `stop` and
reranker confidence ≥ 0.74, end reason `confidence_met`) takes precedence
over the convergence check. -/
theorem converged_top5_terminates_second_iteration :
    (∀ (s : LoopState) (ranked : List RankedCandidate) (rr : RerankerOutput)
        (cr : CriticOutput),
      ranked ≠ [] → s.priorTopIds ≠ [] →
      s.priorTopIds.take 5 = (ranked.take 5).map (·.companyId) →
      ¬ (cr.decision = .stop ∧ mkRat 74 100 ≤ rr.confidence) →
      ∃ s', afterCritic s ranked rr cr = .brk s' ∧ s'.endReason = .converged
        ∧ s'.iteration = s.iteration ∧ s'.finalCandidates = ranked)
    ∧ (∀ (s : LoopState) (ranked : List RankedCandidate) (rr : RerankerOutput)
        (cr : CriticOutput),
      cr.decision = .stop → mkRat 74 100 ≤ rr.confidence →
      ∃ s', afterCritic s ranked rr cr = .brk s' ∧ s'.endReason = .confidence_met)
    ∧ (∀ (E : Env) (inp : RunInput) (anchor : Option Company) (i : Nat) (rest : List Nat)
        (s s' : LoopState),
      iterStep E inp anchor i s = .brk s' →
      runIters E inp anchor (i :: rest) s = (s', none)) := by
  refine ⟨?_, ?_, ?_⟩
  · intro s ranked rr cr hr hp heq hnostop
    have htop_ne : (ranked.take 5).map (·.companyId) ≠ [] := by
      simp only [ne_eq, List.map_eq_nil_iff, List.take_eq_nil_iff]
      simp [hr]
    have hconv : converged s.priorTopIds ((ranked.take 5).map (·.companyId)) = true := by
      unfold converged
      rw [if_neg]
      · rw [take5_map_take5, heq]
        simp
      · simp only [Bool.or_eq_true, List.isEmpty_iff]
        rintro (h | h)
        · exact hp h
        · exact htop_ne h
    simp only [afterCritic]
    rw [if_neg hnostop, if_pos hconv]
    exact ⟨_, rfl, rfl, rfl, rfl⟩
  · intro s ranked rr cr hstop hconf
    simp only [afterCritic]
    rw [if_pos ⟨hstop, hconf⟩]
    exact ⟨_, rfl, rfl⟩
  · intro E inp anchor i rest s s' h
    simp [runIters, h]

/-- Witness for C3 at concrete inputs: previous top ids `["c1"]`, current
reranked candidates `[rcand1]` (top ids `["c1"]`), critic votes continue. -/
theorem converged_top5_terminates_second_iteration_witness :
    (([rcand1] : List RankedCandidate) ≠ [] ∧ stateC3.priorTopIds ≠ []
      ∧ stateC3.priorTopIds.take 5 = (([rcand1].take 5).map (·.companyId))
      ∧ ¬ (crCont.decision = .stop ∧ mkRat 74 100 ≤ rrLow.confidence))
    ∧ (∃ s', afterCritic stateC3 [rcand1] rrLow crCont = .brk s'
        ∧ s'.endReason = .converged ∧ s'.iteration = stateC3.iteration
        ∧ s'.finalCandidates = [rcand1]) :=
  ⟨⟨by decide, by decide, by decide, by decide⟩,
    converged_top5_terminates_second_iteration.1 stateC3 [rcand1] rrLow crCont
      (by decide) (by decide) (by decide) (by decide)⟩


/-! ## Frame lemmas: what the retrieval steps can mutate -/

theorem hybridStep_shape (O : IterOracle) (plan : AgentPlan) (anchor : Option Company)
    (em : List (List Rat)) (q : Nat) (s : LoopState) :
    ∃ tc cm lg, hybridStep O plan anchor em q s
      = { s with toolCalls := tc, candidateMap := cm, loggedRetrievalFailures := lg } := by
  simp only [hybridStep]
  split
  · split
    · exact ⟨_, _, _, rfl⟩
    · exact ⟨_, _, _, rfl⟩
  · exact ⟨s.toolCalls, s.candidateMap, s.loggedRetrievalFailures, rfl⟩

theorem keywordStep_shape (O : IterOracle) (plan : AgentPlan) (anchor : Option Company)
    (q : Nat) (s : LoopState) :
    ∃ tc cm lg, keywordStep O plan anchor q s
      = { s with toolCalls := tc, candidateMap := cm, loggedRetrievalFailures := lg } := by
  simp only [keywordStep]
  split
  · split
    · exact ⟨_, _, _, rfl⟩
    · exact ⟨_, _, _, rfl⟩
  · exact ⟨s.toolCalls, s.candidateMap, s.loggedRetrievalFailures, rfl⟩

theorem taxonomyStep_shape (O : IterOracle) (plan : AgentPlan) (anchor : Option Company)
    (s : LoopState) :
    ∃ tc cm lg, taxonomyStep O plan anchor s
      = { s with toolCalls := tc, candidateMap := cm, loggedRetrievalFailures := lg } := by
  simp only [taxonomyStep]
  split
  · split
    · exact ⟨_, _, _, rfl⟩
    · exact ⟨_, _, _, rfl⟩
  · exact ⟨s.toolCalls, s.candidateMap, s.loggedRetrievalFailures, rfl⟩

theorem queryStep_shape (O : IterOracle) (plan : AgentPlan) (anchor : Option Company)
    (em : List (List Rat)) (q : Nat) (s : LoopState) :
    ∃ tc cm lg, queryStep O plan anchor em q s
      = { s with toolCalls := tc, candidateMap := cm, loggedRetrievalFailures := lg } := by
  obtain ⟨tc1, cm1, lg1, h1⟩ := hybridStep_shape O plan anchor em q s
  obtain ⟨tc2, cm2, lg2, h2⟩ := keywordStep_shape O plan anchor q
    ({ s with toolCalls := tc1, candidateMap := cm1, loggedRetrievalFailures := lg1 })
  exact ⟨tc2, cm2, lg2, by rw [queryStep, h1, h2]⟩

theorem queryLoop_shape (O : IterOracle) (plan : AgentPlan) (anchor : Option Company)
    (em : List (List Rat)) (qs : List Nat) (s : LoopState) :
    ∃ tc cm lg, queryLoop O plan anchor em qs s
      = { s with toolCalls := tc, candidateMap := cm, loggedRetrievalFailures := lg } := by
  induction qs generalizing s with
  | nil => exact ⟨s.toolCalls, s.candidateMap, s.loggedRetrievalFailures, rfl⟩
  | cons q rest ih =>
    simp only [queryLoop]
    split
    · exact ⟨s.toolCalls, s.candidateMap, s.loggedRetrievalFailures, rfl⟩
    · obtain ⟨tc1, cm1, lg1, h1⟩ := queryStep_shape O plan anchor em q s
      obtain ⟨tc2, cm2, lg2, h2⟩ := ih
        ({ s with toolCalls := tc1, candidateMap := cm1, loggedRetrievalFailures := lg1 })
      exact ⟨tc2, cm2, lg2, by rw [h1, h2]⟩

theorem retrievalPhase_shape (O : IterOracle) (plan : AgentPlan) (anchor : Option Company)
    (em : List (List Rat)) (s : LoopState) :
    ∃ tc cm lg, retrievalPhase O plan anchor em s
      = { s with toolCalls := tc, candidateMap := cm, loggedRetrievalFailures := lg } := by
  obtain ⟨tc1, cm1, lg1, h1⟩ :=
    queryLoop_shape O plan anchor em (List.range (iterQueries plan).length) s
  obtain ⟨tc2, cm2, lg2, h2⟩ := taxonomyStep_shape O plan anchor
    ({ s with toolCalls := tc1, candidateMap := cm1, loggedRetrievalFailures := lg1 })
  exact ⟨tc2, cm2, lg2, by rw [retrievalPhase, h1, h2]⟩

/-- `afterCritic` only ever breaks or continues, preserving the iteration
counter and the ghost invocation counters. -/
theorem afterCritic_shape (s : LoopState) (ranked : List RankedCandidate)
    (rr : RerankerOutput) (cr : CriticOutput) :
    (∀ s' e, afterCritic s ranked rr cr ≠ .fail s' e)
    ∧ (afterCritic s ranked rr cr).state.iteration = s.iteration
    ∧ (afterCritic s ranked rr cr).state.plannerInvocations = s.plannerInvocations := by
  simp only [afterCritic]
  split
  · refine ⟨?_, rfl, rfl⟩
    intro s' e h
    cases h
  · split
    · refine ⟨?_, rfl, rfl⟩
      intro s' e h
      cases h
    · split <;> (refine ⟨?_, rfl, rfl⟩; intro s' e h; cases h)

/-- `iterTail` preserves the iteration counter and the planner invocation
counter of the state it receives. -/
theorem iterTail_iteration_and_planner (E : Env) (O : IterOracle) (anchor : Option Company)
    (plan : AgentPlan) (s : LoopState) :
    (iterTail E O anchor plan s).state.iteration = s.iteration
    ∧ (iterTail E O anchor plan s).state.plannerInvocations = s.plannerInvocations := by
  cases hh : O.hydrateError with
  | some e => simp only [iterTail, hh]; exact ⟨rfl, rfl⟩
  | none =>
    simp only [iterTail, hh]
    split
    next hE => exact ⟨rfl, rfl⟩
    next hE =>
      cases hrr : O.rerank with
      | error e => exact ⟨rfl, rfl⟩
      | ok rr =>
        cases hcc : O.critic with
        | error e => exact ⟨rfl, rfl⟩
        | ok cr =>
          obtain ⟨_, hit, hpl⟩ := afterCritic_shape _ _ rr cr
          exact ⟨hit, hpl⟩

theorem retrievalPhase_iteration (O : IterOracle) (plan : AgentPlan)
    (anchor : Option Company) (em : List (List Rat)) (s : LoopState) :
    (retrievalPhase O plan anchor em s).iteration = s.iteration
    ∧ (retrievalPhase O plan anchor em s).plannerInvocations = s.plannerInvocations := by
  obtain ⟨tc, cm, lg, h⟩ := retrievalPhase_shape O plan anchor em s
  rw [h]
  exact ⟨rfl, rfl⟩

/-- The state of every `iterStep` outcome carries the pass's iteration
number, and one pass consumes at most one planner invocation. -/
theorem iterStep_iteration_and_planner (E : Env) (inp : RunInput) (anchor : Option Company)
    (i : Nat) (s : LoopState) :
    (iterStep E inp anchor i s).state.iteration = i
    ∧ (iterStep E inp anchor i s).state.plannerInvocations ≤ s.plannerInvocations + 1 := by
  simp only [iterStep]
  split
  · exact ⟨rfl, Nat.le_succ _⟩
  · cases hp : (E.iter i).planner with
    | error e => exact ⟨rfl, le_refl _⟩
    | ok p =>
      cases he : (E.iter i).embeddings with
      | error e => exact ⟨rfl, le_refl _⟩
      | ok em =>
        obtain ⟨h1, h2⟩ := iterTail_iteration_and_planner E (E.iter i) anchor
          (planAfterAnchor inp anchor p)
          (retrievalPhase (E.iter i) (planAfterAnchor inp anchor p) anchor em
            { { s with iteration := i } with
                toolCalls := { s with iteration := i }.toolCalls + 1 + 1
                plannerInvocations := { s with iteration := i }.plannerInvocations + 1
                finalPlan := planAfterAnchor inp anchor p })
        obtain ⟨h3, h4⟩ := retrievalPhase_iteration (E.iter i) (planAfterAnchor inp anchor p)
          anchor em
          { { s with iteration := i } with
              toolCalls := { s with iteration := i }.toolCalls + 1 + 1
              plannerInvocations := { s with iteration := i }.plannerInvocations + 1
              finalPlan := planAfterAnchor inp anchor p }
        constructor
        · rw [h1, h3]
        · rw [h2, h4]


/-! ## Lemmas about the finalizer -/

theorem companiesByIdLookup_found (comps : List Company) (ids : List String) (k : String)
    (hc : ∃ comp ∈ comps, comp.id = k) (hk : k ∈ ids) :
    ∃ c, companiesByIdLookup (getCompaniesByIds comps ids) k = some c ∧ c.id = k := by
  obtain ⟨comp, hmem, hid⟩ := hc
  have hin : comp ∈ (getCompaniesByIds comps ids).reverse := by
    rw [List.mem_reverse]
    unfold getCompaniesByIds
    rw [List.mem_filter]
    exact ⟨hmem, by simp [hid, hk]⟩
  have hsome : ((getCompaniesByIds comps ids).reverse.find? (fun c => c.id = k)).isSome := by
    rw [List.find?_isSome]
    exact ⟨comp, hin, by simp [hid]⟩
  obtain ⟨c, hfind⟩ := Option.isSome_iff_exists.mp hsome
  refine ⟨c, hfind, ?_⟩
  have := List.find?_some hfind
  simpa using this

theorem companiesByIdLookup_id (found : List Company) (k : String) (c : Company)
    (h : companiesByIdLookup found k = some c) : c.id = k := by
  have := List.find?_some h
  simpa using this

/-- The non-empty-candidates branch of the finalizer succeeds and keeps the
loop's end reason and candidates (given hydration and summary succeed and
the candidates exist in the dataset). -/
theorem finalizePhase_offers_candidates (E : Env) (s : LoopState) (txt : String)
    (hne : s.finalCandidates ≠ []) (hhyd : E.finalHydrateError = none)
    (hsum : E.summary = .ok txt)
    (hdata : ∀ cand ∈ s.finalCandidates, ∃ comp ∈ E.companies, comp.id = cand.companyId) :
    ∃ payload rec, (finalizePhase E none s).2 = .ok (payload, rec)
      ∧ payload.references ≠ []
      ∧ rec.endReason = s.endReason
      ∧ payload.telemetry.endReason = s.endReason
      ∧ ∀ r ∈ payload.references, r.companyId ∈ s.finalCandidates.map (·.companyId) := by
  have hfc : s.finalCandidates.isEmpty = false := by
    simpa [List.isEmpty_iff] using hne
  have htopn : (1 : Nat) ≤ (max 1 s.finalPlan.targetResultCount).toNat := by
    rw [Int.le_toNat (le_trans Int.one_nonneg (le_max_left _ _))]
    exact_mod_cast le_max_left 1 s.finalPlan.targetResultCount
  have hfinalTop :
      s.finalCandidates.take (max 1 s.finalPlan.targetResultCount).toNat ≠ [] := by
    rw [ne_eq, List.take_eq_nil_iff]
    push_neg
    exact ⟨by omega, hne⟩
  have hfte :
      (s.finalCandidates.take (max 1 s.finalPlan.targetResultCount).toNat).isEmpty = false := by
    simpa [List.isEmpty_iff] using hfinalTop
  simp only [finalizePhase, hfc, hfte, hhyd, hsum, Bool.false_eq_true, if_false]
  refine ⟨_, _, rfl, ?_, rfl, rfl, ?_⟩
  · rw [ne_eq, List.filterMap_eq_nil_iff]
    push_neg
    obtain ⟨c0, hc0⟩ := List.exists_mem_of_ne_nil _ hfinalTop
    have hc0' : c0 ∈ s.finalCandidates := List.mem_of_mem_take hc0
    have hkmem : c0.companyId ∈
        List.take (max 1 s.finalPlan.targetResultCount).toNat
          (s.finalCandidates.map (·.companyId)) := by
      rw [← List.map_take]
      exact List.mem_map_of_mem _ hc0
    obtain ⟨c, hcl, _⟩ := companiesByIdLookup_found E.companies
      (List.take (max 1 s.finalPlan.targetResultCount).toNat
        (s.finalCandidates.map (·.companyId)))
      c0.companyId (hdata c0 hc0') hkmem
    exact ⟨c0, hc0, by simp [hcl]⟩
  · intro r hr
    rw [List.mem_filterMap] at hr
    obtain ⟨cand, hcand, hmap⟩ := hr
    rw [Option.map_eq_some'] at hmap
    obtain ⟨company, hlook, hbuild⟩ := hmap
    have hid := companiesByIdLookup_id _ _ _ hlook
    have : r.companyId = cand.companyId := by rw [← hbuild, hid]
    rw [this]
    exact List.mem_map_of_mem _ (List.mem_of_mem_take hcand)


/-! ## Claim C5: iteration counter and guardrails -/

theorem runIters_bound (E : Env) (inp : RunInput) (anchor : Option Company)
    (iters : List Nat) (s : LoopState)
    (hiters : ∀ j ∈ iters, j ≤ LOOP_LIMITS_maxIterations)
    (hs : s.iteration ≤ LOOP_LIMITS_maxIterations) :
    (runIters E inp anchor iters s).1.iteration ≤ LOOP_LIMITS_maxIterations
    ∧ (runIters E inp anchor iters s).1.plannerInvocations
      ≤ s.plannerInvocations + iters.length := by
  induction iters generalizing s with
  | nil => exact ⟨hs, by simp [runIters]⟩
  | cons i rest ih =>
    have hi : i ≤ LOOP_LIMITS_maxIterations := hiters i (List.mem_cons_self _ _)
    obtain ⟨hit, hpl⟩ := iterStep_iteration_and_planner E inp anchor i s
    simp only [runIters]
    cases hstep : iterStep E inp anchor i s with
    | next s' =>
      rw [hstep] at hit hpl
      obtain ⟨b1, b2⟩ := ih s' (fun j hj => hiters j (List.mem_cons_of_mem _ hj))
        (by simpa [StepResult.state] using hit ▸ hi)
      refine ⟨b1, le_trans b2 ?_⟩
      have h1 : s'.plannerInvocations ≤ s.plannerInvocations + 1 := by
        simpa [StepResult.state] using hpl
      simp only [List.length_cons]
      omega
    | brk s' =>
      rw [hstep] at hit hpl
      simp only [StepResult.state] at hit hpl
      refine ⟨hit ▸ hi, ?_⟩
      simp only [List.length_cons]
      omega
    | fail s' e =>
      rw [hstep] at hit hpl
      simp only [StepResult.state] at hit hpl
      refine ⟨hit ▸ hi, ?_⟩
      simp only [List.length_cons]
      omega

/-- **C5.** In every run of the search loop the pass numbered `i` leaves its
iteration counter exactly at `i` (so the counter advances by exactly 1 per
pass along `[1, …, 10]`), the plan→retrieve→rerank→critic body executes at
most `maxIterations = 10` times (at most ten planner invocations over the
loop, whose counter never exceeds 10); when the wall-clock ceiling or the
tool-call ceiling (40) is hit at the top of a pass, the pass immediately
breaks with end reason `guardrail_hit` leaving the accumulated candidates
untouched, a break stops the loop, and the finalizer still builds the
answer from those accumulated candidates (same end reason, non-empty
references drawn from them) rather than discarding them. -/
theorem iteration_guardrails_and_finalizer_offer :
    (∀ (E : Env) (inp : RunInput) (anchor : Option Company) (i : Nat) (s : LoopState),
      (iterStep E inp anchor i s).state.iteration = i)
    ∧ (∀ (E : Env) (inp : RunInput) (anchor : Option Company) (s : LoopState),
      s.iteration ≤ LOOP_LIMITS_maxIterations →
      (runIters E inp anchor (List.range' 1 LOOP_LIMITS_maxIterations) s).1.iteration
          ≤ LOOP_LIMITS_maxIterations
        ∧ (runIters E inp anchor (List.range' 1 LOOP_LIMITS_maxIterations) s).1.plannerInvocations
          ≤ s.plannerInvocations + LOOP_LIMITS_maxIterations)
    ∧ (∀ (E : Env) (inp : RunInput) (anchor : Option Company) (i : Nat) (s : LoopState),
      (E.iter i).runtimeExceeded = true ∨ LOOP_LIMITS_maxToolCalls ≤ s.toolCalls →
      iterStep E inp anchor i s
        = .brk { s with iteration := i, endReason := .guardrail_hit })
    ∧ (∀ (E : Env) (inp : RunInput) (anchor : Option Company) (i : Nat) (rest : List Nat)
        (s s' : LoopState),
      iterStep E inp anchor i s = .brk s' →
      runIters E inp anchor (i :: rest) s = (s', none))
    ∧ (∀ (E : Env) (s : LoopState) (txt : String),
      s.finalCandidates ≠ [] → E.finalHydrateError = none → E.summary = .ok txt →
      (∀ cand ∈ s.finalCandidates, ∃ comp ∈ E.companies, comp.id = cand.companyId) →
      ∃ payload rec, (finalizePhase E none s).2 = .ok (payload, rec)
        ∧ payload.references ≠ []
        ∧ rec.endReason = s.endReason
        ∧ payload.telemetry.endReason = s.endReason
        ∧ ∀ r ∈ payload.references,
            r.companyId ∈ s.finalCandidates.map (·.companyId)) := by
  refine ⟨?_, ?_, ?_, ?_, ?_⟩
  · intro E inp anchor i s
    exact (iterStep_iteration_and_planner E inp anchor i s).1
  · intro E inp anchor s hs
    have := runIters_bound E inp anchor (List.range' 1 LOOP_LIMITS_maxIterations) s
      (fun j hj => by
        rw [List.mem_range'] at hj
        omega) hs
    simpa using this
  · intro E inp anchor i s h
    simp only [iterStep]
    split
    · rfl
    · next hcontra => exact absurd h hcontra
  · intro E inp anchor i rest s s' h
    simp [runIters, h]
  · intro E s txt hne hhyd hsum hdata
    exact finalizePhase_offers_candidates E s txt hne hhyd hsum hdata


/-- Witness for C5 at concrete inputs: a timed-out iteration breaks with
`guardrail_hit`, and the finalizer still returns the accumulated candidate
`c1`. -/
theorem iteration_guardrails_and_finalizer_offer_witness :
    (((envStub.iter 1).runtimeExceeded = true
        ∨ LOOP_LIMITS_maxToolCalls ≤ stateC3.toolCalls)
      ∧ iterStep envStub inp0 none 1 stateC3
          = .brk { stateC3 with iteration := 1, endReason := .guardrail_hit })
    ∧ (stateWithCandidates.finalCandidates ≠ []
      ∧ envStub.finalHydrateError = none
      ∧ envStub.summary = .ok "Summary."
      ∧ (∀ cand ∈ stateWithCandidates.finalCandidates,
          ∃ comp ∈ envStub.companies, comp.id = cand.companyId)
      ∧ ∃ payload rec, (finalizePhase envStub none stateWithCandidates).2 = .ok (payload, rec)
          ∧ payload.references ≠ []
          ∧ rec.endReason = stateWithCandidates.endReason
          ∧ payload.telemetry.endReason = stateWithCandidates.endReason
          ∧ ∀ r ∈ payload.references,
              r.companyId ∈ stateWithCandidates.finalCandidates.map (·.companyId)) :=
  ⟨⟨by decide,
    iteration_guardrails_and_finalizer_offer.2.2.1 envStub inp0 none 1 stateC3 (by decide)⟩,
    by decide, by decide, by decide, by decide,
    iteration_guardrails_and_finalizer_offer.2.2.2.2 envStub stateWithCandidates "Summary."
      (by decide) (by decide) (by decide) (by decide)⟩


/-! ## Claim C6: planner/reranker/critic failure aborts the request -/

/-- **C6.** A failing planner, reranker, or critic completion call is not
retried within the iteration (its invocation counter advances exactly
once), the pass fails, a failing pass stops `runIters` immediately (no
further loop iterations), and the request's outcome is the rethrown error
with the telemetry end reason recorded as `error`. -/
theorem completion_failure_aborts_with_error_telemetry :
    (∀ (E : Env) (inp : RunInput) (anchor : Option Company) (i : Nat) (s : LoopState)
        (e : String),
      ¬ ((E.iter i).runtimeExceeded = true ∨ LOOP_LIMITS_maxToolCalls ≤ s.toolCalls) →
      (E.iter i).planner = .error e →
      ∃ s', iterStep E inp anchor i s = .fail s' e
        ∧ s'.plannerInvocations = s.plannerInvocations + 1
        ∧ s'.rerankInvocations = s.rerankInvocations
        ∧ s'.criticInvocations = s.criticInvocations)
    ∧ (∀ (E : Env) (O : IterOracle) (anchor : Option Company) (plan : AgentPlan)
        (s : LoopState) (e : String),
      O.hydrateError = none →
      (rankedAfterFilters E.companies anchor plan s.candidateMap).isEmpty = false →
      O.rerank = .error e →
      ∃ s', iterTail E O anchor plan s = .fail s' e
        ∧ s'.rerankInvocations = s.rerankInvocations + 1
        ∧ s'.criticInvocations = s.criticInvocations
        ∧ s'.plannerInvocations = s.plannerInvocations)
    ∧ (∀ (E : Env) (O : IterOracle) (anchor : Option Company) (plan : AgentPlan)
        (s : LoopState) (rr : RerankerOutput) (e : String),
      O.hydrateError = none →
      (rankedAfterFilters E.companies anchor plan s.candidateMap).isEmpty = false →
      O.rerank = .ok rr →
      O.critic = .error e →
      ∃ s', iterTail E O anchor plan s = .fail s' e
        ∧ s'.criticInvocations = s.criticInvocations + 1
        ∧ s'.rerankInvocations = s.rerankInvocations + 1
        ∧ s'.plannerInvocations = s.plannerInvocations)
    ∧ (∀ (E : Env) (inp : RunInput) (anchor : Option Company) (i : Nat) (rest : List Nat)
        (s s' : LoopState) (e : String),
      iterStep E inp anchor i s = .fail s' e →
      runIters E inp anchor (i :: rest) s = (s', some e))
    ∧ (∀ (E : Env) (inp : RunInput) (anchor : Option Company) (s0 s1 : LoopState)
        (e : String),
      runIters E inp anchor (List.range' 1 LOOP_LIMITS_maxIterations) s0 = (s1, some e) →
      (loopAndFinish E inp anchor s0).outcome = .error e
        ∧ (loopAndFinish E inp anchor s0).recorded = some (catchRecorded s1)
        ∧ (catchRecorded s1).endReason = .error) := by
  refine ⟨?_, ?_, ?_, ?_, ?_⟩
  · intro E inp anchor i s e hguard hp
    simp only [iterStep]
    split
    · next hcontra => exact absurd hcontra hguard
    · rw [hp]
      exact ⟨_, rfl, rfl, rfl, rfl⟩
  · intro E O anchor plan s e hh hrank hrr
    simp only [iterTail, hh]
    rw [if_neg (by simp [hrank]), hrr]
    exact ⟨_, rfl, rfl, rfl, rfl⟩
  · intro E O anchor plan s rr e hh hrank hrr hcc
    simp only [iterTail, hh]
    rw [if_neg (by simp [hrank]), hrr, hcc]
    exact ⟨_, rfl, rfl, rfl, rfl⟩
  · intro E inp anchor i rest s s' e h
    simp [runIters, h]
  · intro E inp anchor s0 s1 e h
    simp [loopAndFinish, h]
    rfl

/-- Witness for C6 at concrete inputs: a failing planner at iteration 1 and
a failing reranker in `iterTail`, each aborting the run with end reason
`error`. -/
theorem completion_failure_aborts_with_error_telemetry_witness :
    ((¬ ((envPlannerCrash.iter 1).runtimeExceeded = true
          ∨ LOOP_LIMITS_maxToolCalls ≤ stateC3.toolCalls)
        ∧ (envPlannerCrash.iter 1).planner = .error "planner down")
      ∧ ∃ s', iterStep envPlannerCrash inp0 none 1 stateC3 = .fail s' "planner down"
          ∧ s'.plannerInvocations = stateC3.plannerInvocations + 1
          ∧ s'.rerankInvocations = stateC3.rerankInvocations
          ∧ s'.criticInvocations = stateC3.criticInvocations)
    ∧ ((oracleRerankFail.hydrateError = none
        ∧ (rankedAfterFilters envStub.companies none planFix
            stateWithMap.candidateMap).isEmpty = false
        ∧ oracleRerankFail.rerank = .error "reranker down")
      ∧ ∃ s', iterTail envStub oracleRerankFail none planFix stateWithMap
            = .fail s' "reranker down"
          ∧ s'.rerankInvocations = stateWithMap.rerankInvocations + 1
          ∧ s'.criticInvocations = stateWithMap.criticInvocations
          ∧ s'.plannerInvocations = stateWithMap.plannerInvocations)
    ∧ ((loopAndFinish envPlannerCrash inp0 none stateC3).outcome = .error "planner down"
      ∧ (catchRecorded (runIters envPlannerCrash inp0 none
          (List.range' 1 LOOP_LIMITS_maxIterations) stateC3).1).endReason = .error) :=
  ⟨⟨⟨by decide, by decide⟩,
    completion_failure_aborts_with_error_telemetry.1 envPlannerCrash inp0 none 1 stateC3
      "planner down" (by decide) (by decide)⟩,
   ⟨⟨by decide, by decide, by decide⟩,
    completion_failure_aborts_with_error_telemetry.2.1 envStub oracleRerankFail none planFix
      stateWithMap "reranker down" (by decide) (by decide) (by decide)⟩,
   ⟨(completion_failure_aborts_with_error_telemetry.2.2.2.2 envPlannerCrash inp0 none stateC3
      (runIters envPlannerCrash inp0 none (List.range' 1 LOOP_LIMITS_maxIterations) stateC3).1
      "planner down" (by decide)).1,
    (completion_failure_aborts_with_error_telemetry.2.2.2.2 envPlannerCrash inp0 none stateC3
      (runIters envPlannerCrash inp0 none (List.range' 1 LOOP_LIMITS_maxIterations) stateC3).1
      "planner down" (by decide)).2.2⟩⟩


/-! ## Claim C7: retrieval failures degrade coverage, never the request -/

theorem hybridStep_map_on_error (O : IterOracle) (plan : AgentPlan) (anchor : Option Company)
    (em : List (List Rat)) (q : Nat) (s : LoopState) (e : String)
    (h : O.hybrid q = .error e) :
    (hybridStep O plan anchor em q s).candidateMap = s.candidateMap := by
  simp only [hybridStep]
  split
  · rw [h]
  · rfl

theorem keywordStep_map_on_error (O : IterOracle) (plan : AgentPlan)
    (anchor : Option Company) (q : Nat) (s : LoopState) (e : String)
    (h : O.keyword q = .error e) :
    (keywordStep O plan anchor q s).candidateMap = s.candidateMap := by
  simp only [keywordStep]
  split
  · rw [h]
  · rfl

theorem taxonomyStep_map_on_error (O : IterOracle) (plan : AgentPlan)
    (anchor : Option Company) (s : LoopState) (e : String) (h : O.taxonomy = .error e) :
    (taxonomyStep O plan anchor s).candidateMap = s.candidateMap := by
  simp only [taxonomyStep]
  split
  · rw [h]
  · rfl

theorem queryLoop_map_on_error (O : IterOracle) (plan : AgentPlan) (anchor : Option Company)
    (em : List (List Rat)) (qs : List Nat) (s : LoopState)
    (hh : ∀ q, ∃ eh, O.hybrid q = .error eh) (hk : ∀ q, ∃ ek, O.keyword q = .error ek) :
    (queryLoop O plan anchor em qs s).candidateMap = s.candidateMap := by
  induction qs generalizing s with
  | nil => rfl
  | cons q rest ih =>
    simp only [queryLoop]
    split
    · rfl
    · rw [ih]
      obtain ⟨eh, h1⟩ := hh q
      obtain ⟨ek, h2⟩ := hk q
      rw [queryStep, keywordStep_map_on_error O plan anchor q _ ek h2,
        hybridStep_map_on_error O plan anchor em q s eh h1]

theorem iterTail_no_fail (E : Env) (O : IterOracle) (anchor : Option Company)
    (plan : AgentPlan) (s : LoopState) (rr : RerankerOutput) (cr : CriticOutput)
    (hh : O.hydrateError = none) (hrr : O.rerank = .ok rr) (hcc : O.critic = .ok cr) :
    ∀ s' e, iterTail E O anchor plan s ≠ .fail s' e := by
  intro s' e
  simp only [iterTail, hh]
  split
  · exact fun h => StepResult.noConfusion h
  · rw [hrr, hcc]
    exact (afterCritic_shape _ _ rr cr).1 s' e

/-- **C7.** An individual retrieval-call failure does not abort the
request: each failing strategy call leaves the candidate map exactly as it
was before the call (no partial merge), counts its tool call, and is
logged; a failing exact-name lookup leaves the best-match map untouched;
when every retrieval call of an iteration fails the whole retrieval phase
leaves the candidate map unchanged; and as long as the planner, embedding,
hydration, reranker and critic succeed, the pass never fails — the loop
continues — whatever the retrieval results are. -/
theorem retrieval_failure_never_aborts :
    (∀ (O : IterOracle) (plan : AgentPlan) (anchor : Option Company)
        (em : List (List Rat)) (q : Nat) (s : LoopState) (e : String),
      SearchStrategy.hybrid ∈ plan.searchPriorityOrder →
      (em.get? q).getD ((em.get? 0).getD []) ≠ [] →
      O.hybrid q = .error e →
      hybridStep O plan anchor em q s
        = { s with
            toolCalls := s.toolCalls + 1
            loggedRetrievalFailures := s.loggedRetrievalFailures + 1 })
    ∧ (∀ (O : IterOracle) (plan : AgentPlan) (anchor : Option Company) (q : Nat)
        (s : LoopState) (e : String),
      SearchStrategy.keyword ∈ plan.searchPriorityOrder →
      O.keyword q = .error e →
      keywordStep O plan anchor q s
        = { s with
            toolCalls := s.toolCalls + 1
            loggedRetrievalFailures := s.loggedRetrievalFailures + 1 })
    ∧ (∀ (O : IterOracle) (plan : AgentPlan) (anchor : Option Company) (s : LoopState)
        (e : String),
      SearchStrategy.taxonomy ∈ plan.searchPriorityOrder →
      (plan.filters.sectors ≠ [] ∨ plan.filters.categories ≠ []
        ∨ plan.filters.businessModels ≠ []) →
      O.taxonomy = .error e →
      taxonomyStep O plan anchor s
        = { s with
            toolCalls := s.toolCalls + 1
            loggedRetrievalFailures := s.loggedRetrievalFailures + 1 })
    ∧ (∀ (E : Env) (acc : Nat × JsMap ExactNameRow) (idx : Nat) (text : String) (e : String),
      E.exactName idx = .error e → (exactStep E acc (idx, text)).2 = acc.2)
    ∧ (∀ (O : IterOracle) (plan : AgentPlan) (anchor : Option Company)
        (em : List (List Rat)) (s : LoopState),
      (∀ q, ∃ eh, O.hybrid q = .error eh) → (∀ q, ∃ ek, O.keyword q = .error ek) →
      (∃ et, O.taxonomy = .error et) →
      (retrievalPhase O plan anchor em s).candidateMap = s.candidateMap)
    ∧ (∀ (E : Env) (inp : RunInput) (anchor : Option Company) (i : Nat) (s : LoopState)
        (p : AgentPlan) (em : List (List Rat)) (rr : RerankerOutput) (cr : CriticOutput),
      (E.iter i).planner = .ok p → (E.iter i).embeddings = .ok em →
      (E.iter i).hydrateError = none → (E.iter i).rerank = .ok rr →
      (E.iter i).critic = .ok cr →
      ∀ s' e, iterStep E inp anchor i s ≠ .fail s' e) := by
  refine ⟨?_, ?_, ?_, ?_, ?_, ?_⟩
  · intro O plan anchor em q s e hen hemb herr
    simp only [hybridStep]
    split
    · rw [herr]
    · next hcontra => exact absurd ⟨hen, hemb⟩ hcontra
  · intro O plan anchor q s e hen herr
    simp only [keywordStep]
    split
    · rw [herr]
    · next hcontra => exact absurd hen hcontra
  · intro O plan anchor s e hen hfil herr
    simp only [taxonomyStep]
    split
    · rw [herr]
    · next hcontra => exact absurd ⟨hen, hfil⟩ hcontra
  · intro E acc idx text e herr
    simp only [exactStep]
    split
    · rfl
    · rw [herr]
  · intro O plan anchor em s hh hk ht
    obtain ⟨et, h3⟩ := ht
    rw [retrievalPhase, taxonomyStep_map_on_error O plan anchor _ et h3,
      queryLoop_map_on_error O plan anchor em _ s hh hk]
  · intro E inp anchor i s p em rr cr hp he hh hrr hcc
    intro s' e
    simp only [iterStep]
    split
    · exact fun h => StepResult.noConfusion h
    · rw [hp, he]
      exact iterTail_no_fail E (E.iter i) anchor (planAfterAnchor inp anchor p) _ rr cr
        hh hrr hcc s' e

/-- Witness for C7 at concrete inputs: every retrieval call of
`envRetrFail` fails, yet the candidate map is untouched and the pass does
not fail. -/
theorem retrieval_failure_never_aborts_witness :
    ((SearchStrategy.hybrid ∈ planFix.searchPriorityOrder
        ∧ (([[1]] : List (List Rat)).get? 0).getD ((([[1]] : List (List Rat)).get? 0).getD [])
            ≠ ([] : List Rat)
        ∧ oracleRetrFail.hybrid 0 = .error "hybrid down")
      ∧ hybridStep oracleRetrFail planFix none [[1]] 0 stateWithMap
          = { stateWithMap with
              toolCalls := stateWithMap.toolCalls + 1
              loggedRetrievalFailures := stateWithMap.loggedRetrievalFailures + 1 })
    ∧ ((∀ q, ∃ eh, oracleRetrFail.hybrid q = .error eh)
      ∧ (∀ q, ∃ ek, oracleRetrFail.keyword q = .error ek)
      ∧ (∃ et, oracleRetrFail.taxonomy = .error et)
      ∧ (retrievalPhase oracleRetrFail planFix none [[1]] stateWithMap).candidateMap
          = stateWithMap.candidateMap)
    ∧ (((envRetrFail.iter 1).planner = .ok planFix
        ∧ (envRetrFail.iter 1).embeddings = .ok [[1]]
        ∧ (envRetrFail.iter 1).hydrateError = none
        ∧ (envRetrFail.iter 1).rerank = .ok rrFix
        ∧ (envRetrFail.iter 1).critic = .ok crStop)
      ∧ ∀ s' e, iterStep envRetrFail inp0 none 1 stateWithMap ≠ .fail s' e) :=
  ⟨⟨⟨by decide, by decide, by decide⟩,
    retrieval_failure_never_aborts.1 oracleRetrFail planFix none [[1]] 0 stateWithMap
      "hybrid down" (by decide) (by decide) (by decide)⟩,
   ⟨fun q => ⟨"hybrid down", rfl⟩, fun q => ⟨"keyword down", rfl⟩, ⟨"taxonomy down", rfl⟩,
    retrieval_failure_never_aborts.2.2.2.2.1 oracleRetrFail planFix none [[1]] stateWithMap
      (fun q => ⟨"hybrid down", rfl⟩) (fun q => ⟨"keyword down", rfl⟩)
      ⟨"taxonomy down", rfl⟩⟩,
   ⟨⟨by decide, by decide, by decide, by decide, by decide⟩,
    retrieval_failure_never_aborts.2.2.2.2.2 envRetrFail inp0 none 1 stateWithMap planFix
      [[1]] rrFix crStop (by decide) (by decide) (by decide) (by decide) (by decide)⟩⟩


/-! ## Claim C2: the exact-name short circuit -/

theorem mem_of_head?_some {α : Type} {l : List α} {a : α} (h : l.head? = some a) : a ∈ l := by
  cases l with
  | nil => cases h
  | cons b t =>
    have hb : b = a := by simpa using h
    subst hb
    exact List.mem_cons_self _ _

theorem one_le_max_one_toNat (t : Int) : 1 ≤ (max 1 t).toNat := by
  rw [Int.le_toNat (le_trans Int.one_nonneg (le_max_left _ _))]
  exact_mod_cast le_max_left 1 t

theorem take_singleton_of_pos {α : Type} (a : α) (k : Nat) (hk : 1 ≤ k) :
    List.take k [a] = [a] := by
  cases k with
  | zero => omega
  | succ n => simp

/-- The finalizer on a single-candidate state (no anchor): given hydration
finds the company and the summary succeeds, it returns the summary text with
exactly one reference — built from the hydrated record, confidence the
candidate's rounded to 3 decimals — spending one more tool call and keeping
the loop's end reason. -/
theorem finalizePhase_single_candidate (E : Env) (s : LoopState) (cand : RankedCandidate)
    (company : Company) (txt : String)
    (hfc : s.finalCandidates = [cand])
    (hhyd : E.finalHydrateError = none)
    (hsum : E.summary = .ok txt)
    (hfound : (getCompaniesByIds E.companies [cand.companyId]).head? = some company) :
    ∃ payload rec ref, (finalizePhase E none s).2 = .ok (payload, rec)
      ∧ payload.references = [ref]
      ∧ ref.companyId = cand.companyId
      ∧ ref.confidence = roundTo3 cand.confidence
      ∧ payload.telemetry.endReason = s.endReason
      ∧ rec.endReason = s.endReason
      ∧ (finalizePhase E none s).1 = { s with toolCalls := s.toolCalls + 1 } := by
  have hmem : company ∈ getCompaniesByIds E.companies [cand.companyId] :=
    mem_of_head?_some hfound
  have hpair := List.mem_filter.mp (by simpa only [getCompaniesByIds] using hmem)
  have hcid : company.id = cand.companyId := by simpa using hpair.2
  obtain ⟨c, hlook, hc⟩ := companiesByIdLookup_found E.companies [cand.companyId]
    cand.companyId ⟨company, hpair.1, hcid⟩ (List.mem_singleton_self _)
  have hne : s.finalCandidates.isEmpty = false := by rw [hfc]; rfl
  have htake : s.finalCandidates.take (max 1 s.finalPlan.targetResultCount).toNat
      = [cand] := by
    rw [hfc]
    exact take_singleton_of_pos cand _ (one_le_max_one_toNat _)
  have hfte : ([cand] : List RankedCandidate).isEmpty = false := rfl
  simp only [finalizePhase, hne, Bool.false_eq_true, if_false, htake, hfte, hhyd, hsum,
    List.map_cons, List.map_nil, List.filterMap_cons, List.filterMap_nil, hlook,
    Option.map_some']
  refine ⟨_, _, _, rfl, rfl, hc, ?_, ?_, ?_, ?_⟩ <;> trivial

/-- **C2.** When the anchor resolver's best exact-name score reaches the
short-circuit threshold 0.95 and the message shows no similarity intent
(with the hydration, final hydration, and summary calls succeeding), the
request terminates with exactly one reference — the matched entity — at
confidence at least 0.99, end reason `exact_match` in the payload telemetry
and in the recorded run row, and with no planner invocation. -/
theorem exact_match_short_circuit_single_high_confidence
    (E : Env) (inp : RunInput) (row : ExactNameRow) (company : Company) (txt : String)
    (hmsg : inp.userMessage ≠ "")
    (hsim : inp.similarityIntent = false)
    (hbest : anchorBest E inp = some row)
    (hscore : EXACT_SHORT_CIRCUIT_THRESHOLD ≤ row.nameScore)
    (hhyd : E.anchorHydrateError = none)
    (hfound : (getCompaniesByIds E.companies [row.companyId]).head? = some company)
    (hfinalhyd : E.finalHydrateError = none)
    (hsum : E.summary = .ok txt) :
    ∃ payload ref,
      (runAgenticSearch E inp).outcome = .ok payload
      ∧ payload.references = [ref]
      ∧ ref.companyId = row.companyId
      ∧ mkRat 99 100 ≤ ref.confidence
      ∧ payload.telemetry.endReason = .exact_match
      ∧ Option.map Recorded.endReason (runAgenticSearch E inp).recorded
          = some EndReason.exact_match
      ∧ (runAgenticSearch E inp).state.plannerInvocations = 0 := by
  have hthr : ANCHOR_MATCH_THRESHOLD ≤ EXACT_SHORT_CIRCUIT_THRESHOLD := by decide
  have hanchor := le_trans hthr hscore
  have hres : resolveAnchor E inp (anchorBest E inp)
      = .exactShortCircuit (exactShortCircuitCand company.id row.nameScore) := by
    rw [hbest]
    simp [resolveAnchor, hhyd, hfound, hsim, hanchor, hscore]
  have hrun : runAgenticSearch E inp
      = finishRun none (finalizePhase E none
          (exactShortCircuitState (initialLoopState inp (exactBestFold E inp.exactNameInputs).1)
            (exactShortCircuitCand company.id row.nameScore))) := by
    simp only [runAgenticSearch]
    rw [if_neg hmsg, hres]
  have hmemA : company ∈ getCompaniesByIds E.companies [row.companyId] :=
    mem_of_head?_some hfound
  have hpairA := List.mem_filter.mp (by simpa only [getCompaniesByIds] using hmemA)
  have hcidA : company.id = row.companyId := by simpa using hpairA.2
  have hfound2 : (getCompaniesByIds E.companies
      [(exactShortCircuitCand company.id row.nameScore).companyId]).head? = some company := by
    show (getCompaniesByIds E.companies [company.id]).head? = some company
    rw [hcidA]
    exact hfound
  obtain ⟨payload, rec, ref, hfin, href, hrefid, hrefconf, hpe, hre, hstate⟩ :=
    finalizePhase_single_candidate E
      (exactShortCircuitState (initialLoopState inp (exactBestFold E inp.exactNameInputs).1)
        (exactShortCircuitCand company.id row.nameScore))
      (exactShortCircuitCand company.id row.nameScore) company txt rfl hfinalhyd hsum hfound2
  refine ⟨payload, ref, ?_, href, ?_, ?_, ?_, ?_, ?_⟩
  · rw [hrun]
    simp only [finishRun, hfin]
  · rw [hrefid]
    exact hcidA
  · rw [hrefconf]
    have hround : roundTo3 (mkRat 99 100) = mkRat 99 100 := by decide
    exact le_of_eq hround.symm
  · exact hpe
  · rw [hrun]
    simp only [finishRun, hfin, Option.map_some']
    rw [hre]
    rfl
  · rw [hrun]
    simp only [finishRun, hfin]
    rw [hstate]
    rfl

/-- Witness for C2 at concrete inputs: `envExact` returns the 0.97 row for
`c1` on the message "Acme Pay", so the run short-circuits to the single
reference `c1` at confidence 0.99 with end reason `exact_match` and no
planner invocation. -/
theorem exact_match_short_circuit_single_high_confidence_witness :
    ∃ payload ref,
      (runAgenticSearch envExact inpExact).outcome = .ok payload
      ∧ payload.references = [ref]
      ∧ ref.companyId = rowExact.companyId
      ∧ mkRat 99 100 ≤ ref.confidence
      ∧ payload.telemetry.endReason = .exact_match
      ∧ Option.map Recorded.endReason (runAgenticSearch envExact inpExact).recorded
          = some EndReason.exact_match
      ∧ (runAgenticSearch envExact inpExact).state.plannerInvocations = 0 :=
  exact_match_short_circuit_single_high_confidence envExact inpExact rowExact comp1 "Summary."
    (by decide) rfl (by decide) (by decide) rfl (by decide) rfl rfl


/-! ## Claim C4: the anchor never appears among the references -/

theorem finishRun_anchor (anchor : Option Company)
    (fin : LoopState × Except String (FinalAnswerPayload × Recorded)) :
    (finishRun anchor fin).anchorCompany = anchor := by
  simp only [finishRun]
  split <;> rfl

theorem finishRun_ok (anchor : Option Company)
    (fin : LoopState × Except String (FinalAnswerPayload × Recorded))
    (payload : FinalAnswerPayload)
    (h : (finishRun anchor fin).outcome = .ok payload) :
    ∃ rec, fin.2 = .ok (payload, rec) := by
  simp only [finishRun] at h
  split at h
  · simp at h
  · rename_i p r heq
    simp only [Except.ok.injEq] at h
    exact ⟨r, by rw [heq, h]⟩

theorem loopAndFinish_anchor (E : Env) (inp : RunInput) (anchor : Option Company)
    (s0 : LoopState) : (loopAndFinish E inp anchor s0).anchorCompany = anchor := by
  simp only [loopAndFinish]
  split
  · rfl
  · exact finishRun_anchor _ _

theorem loopAndFinish_ok (E : Env) (inp : RunInput) (anchor : Option Company)
    (s0 : LoopState) (payload : FinalAnswerPayload)
    (h : (loopAndFinish E inp anchor s0).outcome = .ok payload) :
    ∃ s1 rec, (finalizePhase E anchor s1).2 = .ok (payload, rec) := by
  simp only [loopAndFinish] at h
  split at h
  · simp at h
  · exact ⟨_, finishRun_ok _ _ _ h⟩

/-- With an anchor active, every reference of a successful finalizer payload
names an entity other than the anchor: the reference list is built from the
candidates that survive the anchor filter. -/
theorem finalizePhase_anchor_excluded (E : Env) (a : Company) (s : LoopState)
    (payload : FinalAnswerPayload) (rec : Recorded)
    (h : (finalizePhase E (some a) s).2 = .ok (payload, rec)) :
    ∀ r ∈ payload.references, r.companyId ≠ a.id := by
  intro r hr
  simp only [finalizePhase] at h
  split at h
  · simp only [Except.ok.injEq, Prod.mk.injEq] at h
    rw [← h.1] at hr
    simp at hr
  · split at h
    · simp only [Except.ok.injEq, Prod.mk.injEq] at h
      rw [← h.1] at hr
      simp at hr
    · split at h
      · simp at h
      · split at h
        · simp at h
        · simp only [Except.ok.injEq, Prod.mk.injEq] at h
          rw [← h.1] at hr
          simp only [List.mem_filterMap] at hr
          obtain ⟨cand, hcand, hmap⟩ := hr
          rw [Option.map_eq_some'] at hmap
          obtain ⟨c, hlook, hbuild⟩ := hmap
          have hcid := companiesByIdLookup_id _ _ _ hlook
          have h2 := List.mem_filter.mp (List.mem_of_mem_take hcand)
          have hne : cand.companyId ≠ a.id := by simpa using h2.2
          rw [← hbuild]
          show c.id ≠ a.id
          rw [hcid]
          exact hne

/-- **C4.** Whenever an anchor entity is active for a request, its id never
appears among the references of a successfully returned final answer
payload, regardless of which retrieval calls returned that entity during
the loop. -/
theorem anchored_entity_excluded_from_references
    (E : Env) (inp : RunInput) (A : Company) (payload : FinalAnswerPayload)
    (hA : (runAgenticSearch E inp).anchorCompany = some A)
    (hok : (runAgenticSearch E inp).outcome = .ok payload) :
    ∀ r ∈ payload.references, r.companyId ≠ A.id := by
  simp only [runAgenticSearch] at hA hok
  by_cases hmsg : inp.userMessage = ""
  · rw [if_pos hmsg] at hA
    simp at hA
  · rw [if_neg hmsg] at hA hok
    cases hres : resolveAnchor E inp (anchorBest E inp) with
    | errorOut e =>
      rw [hres] at hA
      simp at hA
    | exactShortCircuit cand =>
      rw [hres] at hA
      simp [finishRun_anchor] at hA
    | anchored company =>
      rw [hres] at hA hok
      simp only [loopAndFinish_anchor, Option.some.injEq] at hA
      subst hA
      simp only [] at hok
      obtain ⟨s1, rec, hfin⟩ := loopAndFinish_ok _ _ _ _ _ hok
      exact finalizePhase_anchor_excluded E company s1 payload rec hfin
    | plain =>
      rw [hres] at hA
      simp [loopAndFinish_anchor] at hA

/-- Witness for C4 at concrete inputs: the anchored run on `envAnchorLoop`
references only `c2`, even though the hybrid call returned the anchor `c1`
with the top score and the reranker ranked `c1` first. -/
theorem anchored_entity_excluded_from_references_witness :
    ((runAgenticSearch envAnchorLoop inpAnchor).anchorCompany = some comp1
      ∧ (runAgenticSearch envAnchorLoop inpAnchor).outcome = .ok payloadAnchorLoop
      ∧ payloadAnchorLoop.references.map Reference.companyId = ["c2"])
    ∧ ∀ r ∈ payloadAnchorLoop.references, r.companyId ≠ comp1.id :=
  ⟨⟨by decide, by decide, by decide⟩,
   anchored_entity_excluded_from_references envAnchorLoop inpAnchor comp1 payloadAnchorLoop
     (by decide) (by decide)⟩


/-! ## Claim C10: the first-pass convergence seed -/

/-- Counterexample to the claim that a caller-supplied previous-candidate
list matching the first pass's reranked top-5 ids always ends the request
with `converged` after one iteration: on `envPrior` the caller supplies
`["c1"]`, the first pass's reranked top-5 ids are `["c1"]` (the final
state's `priorTopIds`, written by the critic stage from the reranked list),
the comparison itself succeeds — yet the run ends after one iteration with
`confidence_met`, because the critic-stop rule is checked first. -/
theorem convergence_seed_critic_stop_counterexample :
    inp0.previousCandidateIds = ["c1"]
    ∧ (initialLoopState inp0 0).priorTopIds = ["c1"]
    ∧ (runAgenticSearch envPrior inp0).state.iteration = 1
    ∧ (runAgenticSearch envPrior inp0).state.priorTopIds = ["c1"]
    ∧ converged ["c1"] ["c1"] = true
    ∧ (runAgenticSearch envPrior inp0).state.endReason = EndReason.confidence_met
    ∧ (runAgenticSearch envPrior inp0).state.endReason ≠ EndReason.converged := by
  decide

/-- **C10 (amended).** The first pass's convergence check is seeded from the
caller-supplied `clientContext.previousCandidateIds`: `initialLoopState`
copies them into `priorTopIds`; when that seed is non-empty, its first five
ids equal the pass's reranked top-5 ids in order, and the critic-stop rule
(stop with reranker confidence ≥ 0.74, which takes precedence) does not
fire, the pass breaks with `converged` and the loop ends after that single
pass; with an empty seed or an empty current top list the check can never
fire on the first pass. -/
theorem convergence_seed_from_client_context :
    (∀ (inp : RunInput) (n : Nat),
      (initialLoopState inp n).priorTopIds = inp.previousCandidateIds)
    ∧ (∀ (s : LoopState) (ranked : List RankedCandidate) (rr : RerankerOutput)
        (cr : CriticOutput),
      ranked ≠ [] → s.priorTopIds ≠ [] →
      s.priorTopIds.take 5 = (ranked.take 5).map (·.companyId) →
      ¬ (cr.decision = .stop ∧ mkRat 74 100 ≤ rr.confidence) →
      ∃ s', afterCritic s ranked rr cr = .brk s' ∧ s'.endReason = .converged)
    ∧ (∀ (E : Env) (inp : RunInput) (anchor : Option Company) (rest : List Nat)
        (s s' : LoopState),
      iterStep E inp anchor 1 s = .brk s' →
      runIters E inp anchor (1 :: rest) s = (s', none))
    ∧ (∀ t : List String, converged [] t = false)
    ∧ (∀ p : List String, converged p [] = false) := by
  refine ⟨fun inp n => rfl, ?_, ?_, ?_, ?_⟩
  · intro s ranked rr cr hr hp heq hnostop
    have htop_ne : (ranked.take 5).map (·.companyId) ≠ [] := by
      simp only [ne_eq, List.map_eq_nil_iff, List.take_eq_nil_iff]
      simp [hr]
    have hconv : converged s.priorTopIds ((ranked.take 5).map (·.companyId)) = true := by
      unfold converged
      rw [if_neg]
      · rw [take5_map_take5, heq]
        simp
      · simp only [Bool.or_eq_true, List.isEmpty_iff]
        rintro (h | h)
        · exact hp h
        · exact htop_ne h
    simp only [afterCritic]
    rw [if_neg hnostop, if_pos hconv]
    exact ⟨_, rfl, rfl⟩
  · intro E inp anchor rest s s' h
    simp [runIters, h]
  · intro t
    simp [converged]
  · intro p
    simp [converged]

/-- Witness for C10 at concrete inputs: a seed of `["c1"]` (from `inp0`)
converges against the reranked list `[rcandB]` when the critic keeps going,
and an empty seed or an empty top list never converges. -/
theorem convergence_seed_from_client_context_witness :
    (initialLoopState inp0 0).priorTopIds = inp0.previousCandidateIds
    ∧ (∃ s', afterCritic stateC3 [rcandB] rrLow crCont = .brk s'
        ∧ s'.endReason = .converged)
    ∧ converged [] ["c1"] = false
    ∧ converged ["c2"] [] = false :=
  ⟨convergence_seed_from_client_context.1 inp0 0,
   convergence_seed_from_client_context.2.1 stateC3 [rcandB] rrLow crCont
     (by decide) (by decide) (by decide) (by decide),
   convergence_seed_from_client_context.2.2.2.1 ["c1"],
   convergence_seed_from_client_context.2.2.2.2 ["c2"]⟩


/-! ## Claim C8: resuming an unknown or expired session -/

/-- Counterexample to the claim that every resume whose session id has no
pending *unexpired* session yields the session-expired payload: at time
300001 ms the only entry of `storeExpired` is past the 5-minute TTL — the
sweeper would delete it — yet, because the resume entry point checks only
presence in the store and never the entry's age, resuming between sweeper
runs resumes the expired session instead of returning the session-expired
payload. -/
theorem resume_expired_session_counterexample :
    (CLARIFICATION_TIMEOUT_MS < 300001 - pendExpired.startedAtMs)
    ∧ cleanupExpiredClarifications 300001 storeExpired = []
    ∧ resumeStart storeExpired "s1" = .resumed pendExpired []
    ∧ resumeStart storeExpired "s1"
        ≠ .expired "Session expired. Please start a new search." [] := by
  decide

/-- **C8 (amended).** Resuming with a session id *absent from the store*
always returns the user-visible session-expired payload with zero
references (no other outcome is possible on that path); and the sweeper
keeps exactly the entries within the 5-minute TTL, so a swept session id is
absent.  An expired entry that the interval sweeper has not yet removed is
still resumed (see the counterexample). -/
theorem resume_unknown_session_expired :
    (∀ (store : JsMap PendingClarification) (sessionId : String),
      jsGet store sessionId = none →
      resumeStart store sessionId
        = .expired "Session expired. Please start a new search." [])
    ∧ (∀ (now : Int) (store : JsMap PendingClarification)
        (p : String × PendingClarification),
      p ∈ cleanupExpiredClarifications now store
        ↔ p ∈ store ∧ ¬ (CLARIFICATION_TIMEOUT_MS < now - p.2.startedAtMs)) := by
  constructor
  · intro store sessionId h
    simp [resumeStart, h]
  · intro now store p
    simp [cleanupExpiredClarifications, List.mem_filter]

/-- Witness for C8 at concrete inputs: the unknown id `s2` yields the
session-expired payload on `storeExpired`, and the sweeper at time 300001
keeps no entry of that store. -/
theorem resume_unknown_session_expired_witness :
    (jsGet storeExpired "s2" = none
      ∧ resumeStart storeExpired "s2"
          = .expired "Session expired. Please start a new search." [])
    ∧ (("s1", pendExpired) ∈ cleanupExpiredClarifications 300001 storeExpired
        ↔ ("s1", pendExpired) ∈ storeExpired
          ∧ ¬ (CLARIFICATION_TIMEOUT_MS < 300001 - pendExpired.startedAtMs)) :=
  ⟨⟨by decide, resume_unknown_session_expired.1 storeExpired "s2" (by decide)⟩,
   resume_unknown_session_expired.2 300001 storeExpired ("s1", pendExpired)⟩


/-! ## Claim C9: user-visible failure text -/

/-- Counterexample to the claim that the user-visible failure message never
contains internal service or database error text verbatim: when a retrieval
RPC fails with the backend text "connection refused" (not the
schema-mismatch case), the agentic orchestrator's `catch` returns the
fallback payload whose user-visible content is
"Search failed: search_companies_hybrid_v1 failed: connection refused" —
the internal text verbatim, not the stable generic message. -/
theorem internal_error_text_leak_counterexample :
    containsSubstr (runRpcErrorMessage "search_companies_hybrid_v1" "connection refused")
      schemaMismatchMarker = false
    ∧ agentCatchContent (runRpcErrorMessage "search_companies_hybrid_v1" "connection refused")
        = "Search failed: search_companies_hybrid_v1 failed: connection refused"
    ∧ containsSubstr
        (agentCatchContent
          (runRpcErrorMessage "search_companies_hybrid_v1" "connection refused"))
        "connection refused" = true
    ∧ agentCatchContent (runRpcErrorMessage "search_companies_hybrid_v1" "connection refused")
        ≠ SEARCH_UNAVAILABLE_MESSAGE := by
  decide

/-- **C9 (amended).** Errors thrown out of the search are mapped by the
chat API route's `catch` to the stable generic search-unavailable message,
independent of the internal text; but the agentic orchestrator's own
`catch` returns "Search failed: " followed by the internal error message
verbatim as user-visible content (see the counterexample); and `runRpc`
attaches the apply-pending-migration hint to its message exactly in the
schema-mismatch case. -/
theorem user_visible_error_mapping :
    (∀ msg : String, chatRouteErrorEventMessage msg = SEARCH_UNAVAILABLE_MESSAGE)
    ∧ (∀ msg : String, agentCatchContent msg = "Search failed: " ++ msg)
    ∧ (∀ fn msg : String,
      (containsSubstr msg schemaMismatchMarker = true →
        runRpcErrorMessage fn msg = fn ++ " failed: " ++ msg ++ migrationHint)
      ∧ (containsSubstr msg schemaMismatchMarker = false →
        runRpcErrorMessage fn msg = fn ++ " failed: " ++ msg)) := by
  refine ⟨fun msg => rfl, fun msg => rfl, fun fn msg => ⟨?_, ?_⟩⟩
  · intro h
    simp [runRpcErrorMessage, h]
  · intro h
    simp [runRpcErrorMessage, h]

/-- Witness for C9 at concrete inputs: the route maps "connection refused"
to the generic message, the orchestrator catch echoes it, and the
schema-mismatch backend text gets the migration hint. -/
theorem user_visible_error_mapping_witness :
    chatRouteErrorEventMessage "connection refused" = SEARCH_UNAVAILABLE_MESSAGE
    ∧ agentCatchContent "connection refused" = "Search failed: connection refused"
    ∧ containsSubstr schemaMismatchMarker schemaMismatchMarker = true
    ∧ runRpcErrorMessage "search_companies_exact_name_v1" schemaMismatchMarker
        = "search_companies_exact_name_v1 failed: " ++ schemaMismatchMarker
          ++ migrationHint :=
  ⟨user_visible_error_mapping.1 "connection refused",
   user_visible_error_mapping.2.1 "connection refused",
   by decide,
   (user_visible_error_mapping.2.2 "search_companies_exact_name_v1" schemaMismatchMarker).1
     (by decide)⟩

end Ceejay
